import Mathlib

/-!
# Media transfer of the gowhatsapp plugin (`purplegwa-media.go`)

A shallow embedding of `purplegwa-media.go`: `isSaneId`,
`generateFilepath`, `wantToDownload`, `storeDownloadedData`,
`presentDownloadableMessage` and `sendMediaMessage`, together with the parts
of the Go standard library they call (`path/filepath`, `os`, `strings`,
`fmt`).

Conventions.
* A Go `string` is modelled by the sequence of runes that `range` yields
  over it, i.e. by a Lean `String`.
* A Go `error` is modelled by the text its `Error()` method returns, an
  error of package `os` by `OsError`; `nil` is `none`.
* `[]byte` is a list of bytes; a `nil` return value is `none`.
-/

namespace PurpleGwa

/-! ## Identifier validator -/

/-- The loop `for _, r := range s` of `isSaneId`: the first rune outside
`A`..`Z` and `0`..`9` makes the function return `false`. -/
def isSaneIdLoop : List Char → Bool
  | [] => true
  | r :: rest =>
    if (r < 'A' || r > 'Z') && (r < '0' || r > '9') then false
    else isSaneIdLoop rest

/-- Go `isSaneId(s string) bool`. -/
def isSaneId (s : String) : Bool := isSaneIdLoop s.data

/-! ## `path/filepath` (Unix) -/

/-- The elements of a path: the pieces between the separators `/`. -/
def splitSlash : List Char → List (List Char)
  | [] => [[]]
  | c :: cs =>
    if c = '/' then [] :: splitSlash cs
    else
      match splitSlash cs with
      | [] => [[c]]
      | e :: es => (c :: e) :: es

/-- One round of the loop of `filepath.Clean`, on the output buffer kept as
the stack of the elements written so far (last written first).
An empty element and `.` are dropped; `..` removes the last element when
there is one to backtrack over, is dropped at the root of a rooted path, and
is appended otherwise; every other element is appended. -/
def cleanStep (rooted : Bool) (out : List (List Char)) (e : List Char) :
    List (List Char) :=
  if e = [] then out
  else if e = ['.'] then out
  else if e = ['.', '.'] then
    match out with
    | [] => if rooted then [] else [e]
    | top :: below => if top = ['.', '.'] then e :: top :: below else below
  else e :: out

/-- The elements of the output buffer, first written first, with one
separator between two of them. -/
def joinElems : List (List Char) → List Char
  | [] => []
  | [e] => e
  | e :: es => e ++ '/' :: joinElems es

/-- The function `filepath.Clean` on the runes of a path. -/
def cleanChars (path : List Char) : List Char :=
  if path = [] then ['.']
  else
    let rooted := path.head? = some '/'
    let out := (splitSlash path).foldl (cleanStep rooted) []
    if rooted then '/' :: joinElems out.reverse
    else if out = [] then ['.']
    else joinElems out.reverse

/-- Go `filepath.Clean`. -/
def Clean (path : String) : String := ⟨cleanChars path.data⟩

/-- Go `strings.Join(elems, sep)`. -/
def stringsJoin (sep : String) : List String → String
  | [] => ""
  | [e] => e
  | e :: es => e ++ sep ++ stringsJoin sep es

/-- Go `filepath.Join`: the elements from the first non-empty one on are
joined with the separator and cleaned; the result is empty when every
element is. -/
def Join : List String → String
  | [] => ""
  | e :: es => if e ≠ "" then Clean (stringsJoin "/" (e :: es)) else Join es

/-- Go `filepath.IsAbs`. -/
def IsAbs (path : String) : Bool := path.data.head? = some '/'

/-- Go `filepath.Abs`, given the result of `os.Getwd`: an absolute path is
cleaned, a relative one is joined to the working directory, and the call
fails with an empty path when the working directory cannot be found. -/
def Abs (getwd : Except String String) (path : String) : String × Option String :=
  if IsAbs path then (Clean path, none)
  else
    match getwd with
    | .error err => ("", some err)
    | .ok wd => (Join [wd, path], none)

/-! ## Data model -/

/-- The type `whatsapp.MessageInfo` of go-whatsapp; this file reads `Id` only. -/
structure MessageInfo where
  Id : String := ""
  RemoteJid : String := ""
  SenderJid : String := ""
  FromMe : Bool := false
  Timestamp : Nat := 0
  PushName : String := ""
deriving DecidableEq, Repr

/-- Go `generateFilepath`; the error of `filepath.Abs` is discarded. -/
def generateFilepath (getwd : Except String String) (downloadsDirectory : String)
    (info : MessageInfo) : String :=
  (Abs getwd (Join [downloadsDirectory, info.Id])).1

/-- Modelled from the spec: the type `MessageAggregate` is declared outside
this file; these are the fields the struct literals of this file set
(spec §6: `{text, info, system}`), an unset field holding its zero value. -/
structure MessageAggregate where
  text : String := ""
  info : MessageInfo := {}
  system : Bool := false
deriving DecidableEq, Repr

/-- Modelled from the spec: what `presentMessage` is handed, "either a
system/informational message or a conversation-scoped error" (spec §3).
`conversationError info text` is the value of
`makeConversationErrorMessage(info, text)`, a function declared outside this
file; `message m` is a `MessageAggregate` literal. -/
inductive NotificationEvent where
  | conversationError (info : MessageInfo) (text : String)
  | message (m : MessageAggregate)
deriving DecidableEq, Repr

/-- The contents of a file. -/
abbrev Bytes := List UInt8

/-- An entry of the filesystem: a regular file with its content, or a
directory. -/
inductive Entry where
  | file (content : Bytes)
  | dir
deriving DecidableEq, Repr

/-- An error of package `os`, as far as `os.IsNotExist` tells them apart. -/
inductive OsError where
  | ErrNotExist
  | other (text : String)
deriving DecidableEq, Repr

/-- The method `Error()` of an `os` error. -/
def OsError.Error : OsError → String
  | .ErrNotExist => "no such file or directory"
  | .other text => text

/-- Go `os.IsNotExist`. -/
def osIsNotExist : Option OsError → Bool
  | some .ErrNotExist => true
  | _ => false

/-- The receiver `*waHandler`; this file reads `downloadsDirectory` only. -/
structure waHandler where
  downloadsDirectory : String
deriving DecidableEq, Repr

/-- The value behind the interface `downloadable`: what its method
`Download()` returns, the bytes and the error. -/
structure downloadable where
  Download : Bytes × Option String

/-- What the functions of this file act on: the result of `os.Getwd`; the
filesystem, keyed by path; the paths the operating system refuses to look
up, with the text of the error (`permission denied` for a directory on the
way that may not be searched); the faults it answers `mkdir`, `os.Create`
and `Write` with (a failing `Write` leaves the first `n` bytes behind); the
notifications handed to `presentMessage` so far; and how often `Download()`
has been invoked. -/
structure World where
  getwd : Except String String
  fs : String → Option Entry
  lookupFault : String → Option String
  mkdirFault : String → Bool
  createFault : String → Option OsError
  writeFault : String → Bytes → Option (Nat × OsError)
  presented : List NotificationEvent
  downloads : Nat

/-- The filesystem with the entry at `name` replaced. -/
def fsUpdate (fs : String → Option Entry) (name : String) (e : Entry) :
    String → Option Entry :=
  fun p => if p = name then some e else fs p

/-- The world with its filesystem replaced. -/
def World.setFs (w : World) (fs : String → Option Entry) : World :=
  { w with fs := fs }

/-- The length of a path or of one of its elements in bytes (UTF-8). -/
def byteLength (e : List Char) : Nat := (e.map Char.utf8Size).sum

/-- The walk of the operating system along the elements of a rooted path;
`dir` is the directory reached so far, the root when empty. The walk fails
with `file name too long` at an element of more than 255 bytes (`NAME_MAX`)
in a directory that exists, and with `not a directory` when an element with
more elements after it is a regular file. The last element is left to the
caller. -/
def walkFault (fs : String → Option Entry) : List Char → List (List Char) → Option String
  | _, [] => none
  | dir, e :: es =>
    if 255 < byteLength e ∧ (dir = [] ∨ fs ⟨dir⟩ = some .dir) then
      some "file name too long"
    else
      match es with
      | [] => none
      | e2 :: rest =>
        match fs ⟨dir ++ '/' :: e⟩ with
        | some (.file _) => some "not a directory"
        | _ => walkFault fs (dir ++ '/' :: e) (e2 :: rest)

/-- The failure of a system call on the path `name` before the entry itself
is looked at, as the text of its error, which is never `ErrNotExist`:
`invalid argument` for a path with a NUL byte, `file name too long` for a
path of 4096 bytes or more (`PATH_MAX`) or an element of more than 255,
`not a directory` for a path through a regular file, and what the operating
system refuses otherwise. -/
def pathFault (w : World) (name : String) : Option String :=
  if Char.ofNat 0 ∈ name.data then some "invalid argument"
  else if 4096 ≤ byteLength name.data then some "file name too long"
  else
    match (match name.data with
      | '/' :: q => walkFault w.fs [] (splitSlash q)
      | _ => none) with
    | some text => some text
    | none => w.lookupFault name

/-- Go `os.Stat`, reduced to its error: the error of the path when the
lookup fails on the way, `nil` when an entry exists at `name`, `ErrNotExist`
when none does. -/
def osStat (w : World) (name : String) : Option OsError :=
  match pathFault w name with
  | some text => some (.other ("stat " ++ name ++ ": " ++ text))
  | none =>
    match w.fs name with
    | some _ => none
    | none => some .ErrNotExist

/-- The directories on the way to a rooted clean path, outermost first. -/
def dirChain (path : String) : List String :=
  match path.data with
  | '/' :: q => ((splitSlash q).inits.tail).map fun es => ⟨'/' :: joinElems es⟩
  | _ => []

/-- The directory creation of `os.MkdirAll` along a chain of directories: a
directory that exists is kept, a missing one is made unless the operating
system refuses, and the first file in the way or refusal ends the walk. -/
def mkdirChain (fault : String → Bool) :
    List String → (String → Option Entry) → (String → Option Entry)
  | [], fs => fs
  | p :: ps, fs =>
    match fs p with
    | some .dir => mkdirChain fault ps fs
    | some (.file _) => fs
    | none => if fault p then fs else mkdirChain fault ps (fsUpdate fs p .dir)

/-- Go `os.MkdirAll(path, os.ModePerm)`; the caller drops its error. -/
def osMkdirAll (w : World) (path : String) : World :=
  w.setFs (mkdirChain w.mkdirFault (dirChain (Abs w.getwd path).1) w.fs)

/-- Go `os.Create`: fails when the lookup of the path fails, on a
directory, or when the operating system refuses; otherwise the file exists
afterwards and is empty. -/
def osCreate (w : World) (name : String) : World × Option OsError :=
  match pathFault w name with
  | some text => (w, some (.other ("open " ++ name ++ ": " ++ text)))
  | none =>
    match w.fs name with
    | some .dir => (w, some (.other ("open " ++ name ++ ": is a directory")))
    | _ =>
      match w.createFault name with
      | some err => (w, some err)
      | none => (w.setFs (fsUpdate w.fs name (.file [])), none)

/-- Go `file.Write(data)` on the file just created at `name`. -/
def fileWrite (w : World) (name : String) (data : Bytes) : World × Option OsError :=
  match w.writeFault name data with
  | some (n, err) => (w.setFs (fsUpdate w.fs name (.file (data.take n))), some err)
  | none => (w.setFs (fsUpdate w.fs name (.file data)), none)

/-- The sink `handler.presentMessage`, declared outside this file: the
notification is recorded. -/
def presentMessage (w : World) (n : NotificationEvent) : World :=
  { w with presented := w.presented ++ [n] }

/-- A call of `message.Download()`: the invocation is counted. -/
def callDownload (w : World) (message : downloadable) : World × Bytes × Option String :=
  ({ w with downloads := w.downloads + 1 }, message.Download.1, message.Download.2)

/-- Go `(*waHandler).wantToDownload`. -/
def wantToDownload (handler : waHandler) (w : World) (info : MessageInfo) :
    String × Bool :=
  let fp := generateFilepath w.getwd handler.downloadsDirectory info
  let err := osStat w fp
  (fp, osIsNotExist err)

/-- Go `(*waHandler).storeDownloadedData`. -/
def storeDownloadedData (handler : waHandler) (w : World) (filename : String)
    (data : Bytes) : World × Option String :=
  let w1 := osMkdirAll w handler.downloadsDirectory
  match osCreate w1 filename with
  | (w2, some err) =>
    (w2, some ("File " ++ filename ++ " creation failed due to " ++ err.Error ++ "."))
  | (w2, none) =>
    match fileWrite w2 filename data with
    | (w3, some err) =>
      (w3, some ("Data could not be written to file " ++ filename ++ " due to "
        ++ err.Error ++ "."))
    | (w3, none) => (w3, none)

/-- Go `(*waHandler).presentDownloadableMessage`. -/
def presentDownloadableMessage (handler : waHandler) (w : World)
    (message : downloadable) (info : MessageInfo)
    (downloadsEnabled storeFailedDownload inline : Bool) : World × Option Bytes :=
  match wantToDownload handler w info with
  | (filename, wtd) =>
    if wtd then
      if downloadsEnabled then
        if isSaneId info.Id then
          match callDownload w message with
          | (w1, _, some err) =>
            let r : World × String :=
              if storeFailedDownload then
                match storeDownloadedData handler w1 filename [] with
                | (w2, some _) => (w2, "Will not try to download again.")
                | (w2, none) => (w2, "")
              else (w1, "Retrying on next occasion is enabled.")
            (presentMessage r.1 (.conversationError info
              ("A media message (ID " ++ info.Id
                ++ ") was received, but the download failed: " ++ err ++ ". " ++ r.2)),
              none)
          | (w1, data, none) =>
            if inline then (w1, some data)
            else
              match storeDownloadedData handler w1 filename data with
              | (w2, some err) => (presentMessage w2 (.conversationError info err), none)
              | (w2, none) =>
                (presentMessage w2
                  (.message { text := "file://" ++ filename, info := info, system := true }),
                  none)
        else
          (presentMessage w (.conversationError info
            ("A media message (ID " ++ info.Id
              ++ ") was received, but ID looks not sane – downloading skipped.")), none)
      else
        (presentMessage w
          (.message { text := "[File download disabled in settings.]", system := true }),
          none)
    else (w, none)

/-! ## Notions used in the statements -/

/-- The runes `isSaneId` lets through. -/
def saneRune (r : Char) : Prop := ('A' ≤ r ∧ r ≤ 'Z') ∨ ('0' ≤ r ∧ r ≤ '9')

instance (r : Char) : Decidable (saneRune r) := by unfold saneRune; infer_instance

/-- An element that `filepath.Clean` keeps in place: not empty, not `.`,
not `..` and free of separators. -/
def plainElem (e : List Char) : Prop :=
  e ≠ [] ∧ e ≠ ['.'] ∧ e ≠ ['.', '.'] ∧ '/' ∉ e

/-- An element that can stand in the output buffer of `filepath.Clean`. -/
def keptElem (e : List Char) : Prop :=
  e ≠ [] ∧ e ≠ ['.'] ∧ '/' ∉ e


/-- The terminal outcomes of `presentDownloadableMessage` (spec §4.5). -/
inductive Outcome where
  | alreadyHandled
  | downloadsDisabled
  | unsafeIdentifier
  | downloadFailed
  | inlineReturn
  | storeFailed
  | stored
deriving DecidableEq, Repr

/-- What a run that starts in `w` and ends in `w1` with the return value
`ret` shows of each terminal outcome: whether `Download()` was invoked and
how it ended, which notification was emitted, what happened to the
filesystem and what was returned. -/
def Outcome.occurs (handler : waHandler) (w : World) (message : downloadable)
    (info : MessageInfo) (w1 : World) (ret : Option Bytes) : Outcome → Prop
  | .alreadyHandled =>
    w1.downloads = w.downloads ∧ w1.presented = w.presented ∧ w1.fs = w.fs ∧ ret = none
  | .downloadsDisabled =>
    w1.downloads = w.downloads ∧ w1.fs = w.fs ∧ ret = none ∧
    w1.presented = w.presented
      ++ [.message ⟨"[File download disabled in settings.]", {}, true⟩]
  | .unsafeIdentifier =>
    w1.downloads = w.downloads ∧ w1.fs = w.fs ∧ ret = none ∧
    w1.presented = w.presented ++ [.conversationError info
      ("A media message (ID " ++ info.Id
        ++ ") was received, but ID looks not sane – downloading skipped.")]
  | .downloadFailed =>
    w1.downloads = w.downloads + 1 ∧ ret = none ∧
    ∃ err comment, message.Download.2 = some err ∧
      w1.presented = w.presented ++ [.conversationError info
        ("A media message (ID " ++ info.Id
          ++ ") was received, but the download failed: " ++ err ++ ". " ++ comment)]
  | .inlineReturn =>
    w1.downloads = w.downloads + 1 ∧ message.Download.2 = none ∧
    w1.presented = w.presented ∧ w1.fs = w.fs ∧ ret = some message.Download.1
  | .storeFailed =>
    w1.downloads = w.downloads + 1 ∧ message.Download.2 = none ∧ ret = none ∧
    ∃ err, w1.presented = w.presented ++ [.conversationError info err]
  | .stored =>
    w1.downloads = w.downloads + 1 ∧ message.Download.2 = none ∧ ret = none ∧
    w1.fs (generateFilepath w.getwd handler.downloadsDirectory info)
      = some (.file message.Download.1) ∧
    w1.presented = w.presented ++ [.message
      ⟨"file://" ++ generateFilepath w.getwd handler.downloadsDirectory info, info, true⟩]

/-- A world for the examples: the working directory `/home/user`, an empty
filesystem, an operating system without faults, nothing presented yet. -/
def quietWorld : World :=
  { getwd := .ok "/home/user"
    fs := fun _ => none
    lookupFault := fun _ => none
    mkdirFault := fun _ => false
    createFault := fun _ => none
    writeFault := fun _ _ => none
    presented := []
    downloads := 0 }

/-- The handler of the examples, with the downloads directory `dl`. -/
def sampleHandler : waHandler := ⟨"dl"⟩

/-- A media message whose download succeeds with the bytes `01 02`. -/
def goodMedia : downloadable := ⟨([1, 2], none)⟩

/-- A media message whose download fails. -/
def badMedia : downloadable := ⟨([], some "connection reset")⟩

/-- Message infos of the examples. -/
def infoABC123 : MessageInfo := { Id := "ABC123" }

/-- A message info whose identifier is not sane. -/
def infoBadId : MessageInfo := { Id := "bad/id" }

/-! ## Media send adapter -/

/-- Go `strings.HasPrefix` on runes. -/
def startsWithChars : List Char → List Char → Bool
  | _, [] => true
  | [], _ :: _ => false
  | c :: cs, p :: ps => c = p && startsWithChars cs ps

/-- Go `strings.Contains` on runes: `substr` starts at some position of
the text. -/
def containsChars (substr : List Char) : List Char → Bool
  | [] => substr.isEmpty
  | c :: cs => startsWithChars (c :: cs) substr || containsChars substr cs

/-- Go `strings.Contains`. -/
def stringsContains (s substr : String) : Bool := containsChars substr.data s.data

/-- The value `*os.File` that `os.Open` returns: the path opened and the
entry found there. -/
structure OsFile where
  name : String
  entry : Entry
deriving DecidableEq, Repr

/-- The payloads of go-whatsapp that this file builds, `whatsapp.ImageMessage`
and `whatsapp.AudioMessage`, with their fields `Info`, `Type` and `Content`. -/
inductive Payload where
  | ImageMessage (Info : MessageInfo) (ContentType : String) (Content : OsFile)
  | AudioMessage (Info : MessageInfo) (ContentType : String) (Content : OsFile)
deriving DecidableEq, Repr

/-- What the send adapter acts on besides the world: the faults `os.Open`
answers with (a file that may not be read), what `sendMessage` returns for a
payload, and the payloads dispatched so far. -/
structure Outbound where
  openFault : String → Option OsError
  sendResult : Payload → MessageInfo → Option String
  sent : List (Payload × MessageInfo)

/-- Go `os.Open`: the name is resolved against the working directory; the
call fails when the lookup of the path fails, when no entry is there or when
the operating system refuses. -/
def osOpen (w : World) (ob : Outbound) (name : String) : Except OsError OsFile :=
  match Abs w.getwd name with
  | (_, some _) => .error .ErrNotExist
  | (p, none) =>
    match pathFault w p with
    | some text => .error (.other ("open " ++ p ++ ": " ++ text))
    | none =>
      match w.fs p with
      | none => .error .ErrNotExist
      | some e =>
        match ob.openFault p with
        | some err => .error err
        | none => .ok ⟨p, e⟩

/-- Modelled from the spec: `handler.sendMessage`, declared outside this
file, the "generic send operation" that "accepts a protocol-specific payload
object plus `MessageInfo`, returns a completion handle" (spec §6): the
dispatch is recorded and the handle (a `*C.char`, possibly nil) returned. -/
def sendMessage (ob : Outbound) (message : Payload) (info : MessageInfo) :
    Outbound × Option String :=
  ({ ob with sent := ob.sent ++ [(message, info)] }, ob.sendResult message info)

/-- Go `(*waHandler).sendMediaMessage`. -/
def sendMediaMessage (handler : waHandler) (w : World) (ob : Outbound)
    (info : MessageInfo) (text : String) : World × Outbound × Option String :=
  match osOpen w ob (Join [handler.downloadsDirectory, "outgoing"]) with
  | .error err =>
    (presentMessage w (.conversationError info
      ("Unable to read file which was going to be sent: " ++ err.Error)), ob, none)
  | .ok data =>
    if stringsContains text "image" then
      match sendMessage ob (.ImageMessage info "image/jpeg" data) info with
      | (ob1, res) => (w, ob1, res)
    else if stringsContains text "audio" then
      match sendMessage ob (.AudioMessage info "audio/ogg" data) info with
      | (ob1, res) => (w, ob1, res)
    else
      (presentMessage w (.conversationError info
        "Please specify file type image or audio"), ob, none)

/-- A world for the examples of the send adapter: `quietWorld` with a staged
file `outgoing` in the downloads directory. -/
def stagedWorld : World :=
  quietWorld.setFs (fsUpdate quietWorld.fs "/home/user/dl/outgoing" (.file [9, 8, 7]))

/-- An outbound side without faults, whose send operation returns a handle
and which has dispatched nothing yet. -/
def quietOutbound : Outbound :=
  { openFault := fun _ => none
    sendResult := fun _ info => some ("queued " ++ info.Id)
    sent := [] }

/-- The text `s` contains `substr` as a substring, rune for rune. -/
def hasSubstring (s substr : String) : Prop :=
  ∃ pre post : String, s = pre ++ substr ++ post

/-- A world in which the downloads directory of `sampleHandler` exists and
may not be written to: `os.Create` is refused everywhere. -/
def readOnlyWorld : World :=
  { getwd := .ok "/home/user"
    fs := fun p => if p = "/home/user/dl" then some .dir else none
    lookupFault := fun _ => none
    mkdirFault := fun _ => true
    createFault := fun name => some (.other ("open " ++ name ++ ": permission denied"))
    writeFault := fun _ _ => none
    presented := []
    downloads := 0 }

/-- A world in which the path of the downloads directory of `sampleHandler`
is taken by a regular file. -/
def blockedWorld : World :=
  quietWorld.setFs (fsUpdate quietWorld.fs "/home/user/dl" (.file [5]))

/-- A world in which the media of the message `ABC123` has been stored. -/
def storedWorld : World :=
  quietWorld.setFs (fsUpdate quietWorld.fs "/home/user/dl/ABC123" (.file [1, 2]))

/-- A message info whose identifier leads below the stored file `ABC123`;
the identifier is not sane. -/
def infoBelowStored : MessageInfo := { Id := "ABC123/x" }

/-! ## Identifier validator: lemmas -/

theorem isSaneIdLoop_iff (l : List Char) :
    isSaneIdLoop l = true ↔ ∀ r ∈ l, saneRune r := by
  induction l with
  | nil => simp [isSaneIdLoop]
  | cons r rest ih =>
    simp only [isSaneIdLoop, List.mem_cons, forall_eq_or_imp, ← ih]
    by_cases h : saneRune r
    · have h2 : ((decide (r < 'A') || decide (r > 'Z')) && (decide (r < '0') || decide (r > '9'))) = false := by
        unfold saneRune at h
        simp only [Bool.and_eq_false_iff, Bool.or_eq_false_iff, decide_eq_false_iff_not, not_lt]
        tauto
      simp [h2, h]
    · have h2 : ((decide (r < 'A') || decide (r > 'Z')) && (decide (r < '0') || decide (r > '9'))) = true := by
        unfold saneRune at h
        simp only [Bool.and_eq_true, Bool.or_eq_true, decide_eq_true_eq]
        simp only [not_or, not_and_or, not_le] at h
        exact h
      simp [h2, h]

/-! ## `path/filepath`: lemmas -/

theorem splitSlash_cons_slash (cs : List Char) :
    splitSlash ('/' :: cs) = [] :: splitSlash cs := by
  simp [splitSlash]

theorem splitSlash_cons_of_ne (c : Char) (cs : List Char) (hc : c ≠ '/') :
    splitSlash (c :: cs) =
      (c :: (splitSlash cs).headD []) :: (splitSlash cs).tail := by
  rw [splitSlash, if_neg hc]
  cases splitSlash cs <;> rfl

theorem joinElems_cons_cons (x y : List Char) (ys : List (List Char)) :
    joinElems (x :: y :: ys) = x ++ '/' :: joinElems (y :: ys) := rfl

theorem splitSlash_ne_nil (p : List Char) : splitSlash p ≠ [] := by
  cases p with
  | nil => simp [splitSlash]
  | cons c cs =>
    simp only [splitSlash]
    split
    · simp
    · split <;> simp

theorem splitSlash_append_slash (a b : List Char) :
    splitSlash (a ++ '/' :: b) = splitSlash a ++ splitSlash b := by
  induction a with
  | nil => simp [splitSlash]
  | cons c cs ih =>
    by_cases hc : c = '/'
    · simp [splitSlash, hc, ih]
    · rw [List.cons_append, splitSlash_cons_of_ne _ _ hc, splitSlash_cons_of_ne _ _ hc, ih]
      cases h : splitSlash cs with
      | nil => exact absurd h (splitSlash_ne_nil cs)
      | cons e es => simp

theorem splitSlash_of_not_mem (e : List Char) (h : '/' ∉ e) : splitSlash e = [e] := by
  induction e with
  | nil => simp [splitSlash]
  | cons c cs ih =>
    simp only [List.mem_cons, not_or] at h
    have hc : c ≠ '/' := fun h2 => h.1 h2.symm
    simp [splitSlash, hc, ih h.2]

theorem not_mem_of_mem_splitSlash (p : List Char) :
    ∀ e ∈ splitSlash p, '/' ∉ e := by
  induction p with
  | nil => simp [splitSlash]
  | cons c cs ih =>
    by_cases hc : c = '/'
    · simp only [splitSlash, hc, if_true, List.mem_cons]
      rintro e (rfl | he)
      · simp
      · exact ih e he
    · simp only [splitSlash, hc, if_false]
      cases h : splitSlash cs with
      | nil => exact absurd h (splitSlash_ne_nil cs)
      | cons e es =>
        rw [h] at ih
        simp only [List.mem_cons]
        rintro x (rfl | hx)
        · simp only [List.mem_cons, not_or]
          exact ⟨fun h2 => hc h2.symm, ih e (by simp)⟩
        · exact ih x (by simp [hx])

theorem joinElems_append_singleton (es : List (List Char)) (e : List Char) :
    joinElems (es ++ [e]) = if es = [] then e else joinElems es ++ '/' :: e := by
  induction es with
  | nil => simp [joinElems]
  | cons x xs ih =>
    cases xs with
    | nil => simp [joinElems]
    | cons y ys =>
      simp only [List.cons_append, reduceCtorEq, if_false] at ih ⊢
      rw [joinElems_cons_cons, ih, joinElems_cons_cons]
      simp

theorem splitSlash_joinElems (es : List (List Char)) (hne : es ≠ [])
    (h : ∀ e ∈ es, '/' ∉ e) : splitSlash (joinElems es) = es := by
  induction es with
  | nil => exact absurd rfl hne
  | cons x xs ih =>
    cases xs with
    | nil => simpa [joinElems] using splitSlash_of_not_mem x (h x (by simp))
    | cons y ys =>
      simp only [joinElems]
      rw [splitSlash_append_slash, splitSlash_of_not_mem x (h x (by simp))]
      have := ih (by simp) (fun e he => h e (by simp [he]))
      simp only [joinElems] at this
      simp [this]

theorem cleanStep_nil (r : Bool) (out : List (List Char)) : cleanStep r out [] = out := by
  simp [cleanStep]

theorem cleanStep_plain (r : Bool) (out : List (List Char)) (e : List Char)
    (h : plainElem e) : cleanStep r out e = e :: out := by
  obtain ⟨h1, h2, h3, _⟩ := h
  simp [cleanStep, h1, h2, h3]

theorem foldl_cleanStep_plain (r : Bool) (es : List (List Char)) :
    ∀ out : List (List Char), (∀ e ∈ es, plainElem e) →
      es.foldl (cleanStep r) out = es.reverse ++ out := by
  induction es with
  | nil => intro out _; simp
  | cons x xs ih =>
    intro out h
    rw [List.foldl_cons, cleanStep_plain r out x (h x (by simp)),
      ih _ (fun e he => h e (by simp [he]))]
    simp

theorem cleanStep_rooted_plain (out : List (List Char)) (e : List Char)
    (hout : ∀ x ∈ out, plainElem x) (he : '/' ∉ e) :
    ∀ x ∈ cleanStep true out e, plainElem x := by
  unfold cleanStep
  by_cases h1 : e = []
  · simpa [h1] using hout
  by_cases h2 : e = ['.']
  · simpa [h2] using hout
  by_cases h3 : e = ['.', '.']
  · rw [if_neg h1, if_neg h2, if_pos h3]
    cases out with
    | nil => simp
    | cons top below =>
      have htop : top ≠ ['.', '.'] := (hout top (by simp)).2.2.1
      simp only [htop, if_false]
      exact fun x hx => hout x (by simp [hx])
  · rw [if_neg h1, if_neg h2, if_neg h3]
    intro x hx
    rcases List.mem_cons.1 hx with rfl | hx
    · exact ⟨h1, h2, h3, he⟩
    · exact hout x hx

theorem foldl_cleanStep_rooted_plain (es : List (List Char)) :
    ∀ out : List (List Char), (∀ x ∈ out, plainElem x) → (∀ e ∈ es, '/' ∉ e) →
      ∀ x ∈ es.foldl (cleanStep true) out, plainElem x := by
  induction es with
  | nil => intro out h _; simpa using h
  | cons e es ih =>
    intro out hout hes
    rw [List.foldl_cons]
    exact ih _ (cleanStep_rooted_plain out e hout (hes e (by simp)))
      (fun x hx => hes x (by simp [hx]))

theorem cleanStep_kept (r : Bool) (out : List (List Char)) (e : List Char)
    (hout : ∀ x ∈ out, keptElem x) (he : '/' ∉ e) :
    ∀ x ∈ cleanStep r out e, keptElem x := by
  unfold cleanStep
  by_cases h1 : e = []
  · simpa [h1] using hout
  by_cases h2 : e = ['.']
  · simpa [h2] using hout
  by_cases h3 : e = ['.', '.']
  · rw [if_neg h1, if_neg h2, if_pos h3]
    have hk : keptElem e := ⟨h1, h2, he⟩
    cases out with
    | nil =>
      cases r
      · simpa using hk
      · simp
    | cons top below =>
      by_cases htop : top = ['.', '.']
      · simp only [htop, if_true]
        intro x hx
        rcases List.mem_cons.1 hx with rfl | hx
        · exact hk
        · exact hout x (by simpa [htop] using hx)
      · simp only [htop, if_false]
        exact fun x hx => hout x (by simp [hx])
  · rw [if_neg h1, if_neg h2, if_neg h3]
    intro x hx
    rcases List.mem_cons.1 hx with rfl | hx
    · exact ⟨h1, h2, he⟩
    · exact hout x hx

theorem foldl_cleanStep_kept (r : Bool) (es : List (List Char)) :
    ∀ out : List (List Char), (∀ x ∈ out, keptElem x) → (∀ e ∈ es, '/' ∉ e) →
      ∀ x ∈ es.foldl (cleanStep r) out, keptElem x := by
  induction es with
  | nil => intro out h _; simpa using h
  | cons e es ih =>
    intro out hout hes
    rw [List.foldl_cons]
    exact ih _ (cleanStep_kept r out e hout (hes e (by simp)))
      (fun x hx => hes x (by simp [hx]))

/-- Cleaning a relative path and then resolving the result against a rooted
buffer gives the same buffer as resolving the path itself. -/
theorem foldl_cleanStep_relative (xs : List (List Char)) :
    ∀ (S T : List (List Char)), (∀ e ∈ T, keptElem e) → (∀ x ∈ xs, '/' ∉ x) →
      (xs.foldl (cleanStep false) T).reverse.foldl (cleanStep true) S
        = xs.foldl (cleanStep true) (T.reverse.foldl (cleanStep true) S) := by
  induction xs with
  | nil => intro S T _ _; simp
  | cons x xs ih =>
    intro S T hT hxs
    have hx : '/' ∉ x := hxs x (by simp)
    rw [List.foldl_cons, List.foldl_cons,
      ih S _ (cleanStep_kept false T x hT hx) (fun e he => hxs e (by simp [he]))]
    congr 1
    by_cases h1 : x = []
    · simp [cleanStep, h1]
    by_cases h2 : x = ['.']
    · simp [cleanStep, h2]
    by_cases h3 : x = ['.', '.']
    · subst h3
      cases T with
      | nil => simp [cleanStep]
      | cons top below =>
        by_cases htop : top = ['.', '.']
        · subst htop
          simp [cleanStep, List.foldl_append]
        · have hp : plainElem top := by
            obtain ⟨a, b, c⟩ := hT top (by simp)
            exact ⟨a, b, htop, c⟩
          have e1 : cleanStep false (top :: below) ['.', '.'] = below := by
            simp [cleanStep, htop]
          rw [e1, List.reverse_cons, List.foldl_append, List.foldl_cons, List.foldl_nil,
            cleanStep_plain _ _ _ hp]
          simp [cleanStep, htop]
    · have hp : plainElem x := ⟨h1, h2, h3, hx⟩
      rw [cleanStep_plain _ _ _ hp, List.reverse_cons, List.foldl_append, List.foldl_cons,
        List.foldl_nil]

theorem cleanChars_rooted (q : List Char) :
    cleanChars ('/' :: q)
      = '/' :: joinElems ((splitSlash q).foldl (cleanStep true) []).reverse := by
  simp [cleanChars, splitSlash_cons_slash, cleanStep_nil]

theorem cleanChars_relative (p : List Char) (hne : p ≠ []) (hrel : p.head? ≠ some '/') :
    cleanChars p
      = if (splitSlash p).foldl (cleanStep false) [] = [] then ['.']
        else joinElems ((splitSlash p).foldl (cleanStep false) []).reverse := by
  simp [cleanChars, hne, hrel]

theorem joinElems_eq_nil (es : List (List Char)) (h : ∀ e ∈ es, e ≠ [])
    (hj : joinElems es = []) : es = [] := by
  cases es with
  | nil => rfl
  | cons x xs =>
    cases xs with
    | nil => exact absurd (by simpa [joinElems] using hj) (h x (by simp))
    | cons y ys => simp [joinElems] at hj

theorem head?_joinElems (es : List (List Char)) (h : ∀ e ∈ es, keptElem e) :
    (joinElems es).head? ≠ some '/' := by
  cases es with
  | nil => simp [joinElems]
  | cons x xs =>
    obtain ⟨hx1, _, hx3⟩ := h x (by simp)
    cases x with
    | nil => exact absurd rfl hx1
    | cons c cs =>
      have hc : c ≠ '/' := fun hc => hx3 (by simp [hc])
      cases xs with
      | nil => simpa [joinElems] using hc
      | cons y ys => simpa [joinElems] using hc

theorem plainElem.kept {e : List Char} (h : plainElem e) : keptElem e :=
  ⟨h.1, h.2.1, h.2.2.2⟩

/-- On a rooted path that is already clean, `filepath.Clean` changes nothing. -/
theorem cleanChars_rooted_idem (S : List (List Char)) (h : ∀ e ∈ S, plainElem e) :
    cleanChars ('/' :: joinElems S.reverse) = '/' :: joinElems S.reverse := by
  rw [cleanChars_rooted]
  by_cases hS : S = []
  · subst hS; simp [joinElems, splitSlash, cleanStep_nil]
  · have hr : ∀ e ∈ S.reverse, plainElem e := fun e he => h e (by simpa using he)
    rw [splitSlash_joinElems S.reverse (by simpa using hS) (fun e he => (hr e he).2.2.2),
      foldl_cleanStep_plain true S.reverse [] hr]
    simp

theorem data_ne_nil_of_ne_empty (s : String) (h : s ≠ "") : s.data ≠ [] := by
  intro h2; apply h; apply String.ext; simpa using h2

theorem IsAbs_iff (s : String) : IsAbs s = true ↔ ∃ q, s.data = '/' :: q := by
  unfold IsAbs
  cases h : s.data with
  | nil => simp
  | cons c cs => simp

theorem Join_pair_of_ne (a b : String) (h : a ≠ "") :
    Join [a, b] = Clean (a ++ "/" ++ b) := by
  simp [Join, h, stringsJoin]

theorem Join_pair_empty (b : String) (h : b ≠ "") : Join ["", b] = Clean b := by
  simp [Join, h, stringsJoin]

theorem Clean_rooted_join (p t : String) (q : List Char) (hp : p.data = '/' :: q) :
    Clean (p ++ "/" ++ t)
      = ⟨'/' :: joinElems
          ((splitSlash t.data).foldl (cleanStep true)
            ((splitSlash q).foldl (cleanStep true) [])).reverse⟩ := by
  apply String.ext
  show cleanChars (p ++ "/" ++ t).data = _
  have e : (p ++ "/" ++ t).data = '/' :: (q ++ '/' :: t.data) := by
    simp [String.data_append, hp]
  rw [e, cleanChars_rooted, splitSlash_append_slash, List.foldl_append]

theorem Abs_of_rooted_clean (getwd : Except String String) (S : List (List Char))
    (h : ∀ e ∈ S, plainElem e) :
    (Abs getwd ⟨'/' :: joinElems S.reverse⟩).1 = ⟨'/' :: joinElems S.reverse⟩ := by
  have habs : IsAbs ⟨'/' :: joinElems S.reverse⟩ = true := by simp [IsAbs]
  simp only [Abs, habs, if_true]
  apply String.ext
  exact cleanChars_rooted_idem S h

/-- The downloads directory resolves to a rooted clean path, and the file
of a plain identifier is that path with the identifier as one more element. -/
theorem generateFilepath_stack (getwd : Except String String) (dir : String)
    (info : MessageInfo) (hid : plainElem info.Id.data)
    (hwd : IsAbs dir = true ∨ ∃ wd, getwd = .ok wd ∧ IsAbs wd = true) :
    ∃ S : List (List Char), (∀ e ∈ S, plainElem e) ∧
      (Abs getwd dir).1 = ⟨'/' :: joinElems S.reverse⟩ ∧
      generateFilepath getwd dir info
        = ⟨'/' :: joinElems (info.Id.data :: S).reverse⟩ := by
  have hidne : info.Id ≠ "" := by
    intro h; rw [h] at hid; exact hid.1 rfl
  have hsplit : splitSlash info.Id.data = [info.Id.data] :=
    splitSlash_of_not_mem _ hid.2.2.2
  by_cases habs : IsAbs dir = true
  · obtain ⟨q, hq⟩ := (IsAbs_iff dir).1 habs
    have hdne : dir ≠ "" := by
      intro h; rw [h] at hq; simp at hq
    have hS : ∀ e ∈ (splitSlash q).foldl (cleanStep true) [], plainElem e :=
      foldl_cleanStep_rooted_plain _ [] (by simp) (not_mem_of_mem_splitSlash q)
    refine ⟨(splitSlash q).foldl (cleanStep true) [], hS, ?_, ?_⟩
    · simp only [Abs, habs, if_true]
      apply String.ext
      show cleanChars dir.data = _
      rw [hq, cleanChars_rooted]
    · unfold generateFilepath
      rw [Join_pair_of_ne _ _ hdne, Clean_rooted_join dir info.Id q hq, hsplit,
        List.foldl_cons, List.foldl_nil, cleanStep_plain _ _ _ hid]
      refine Abs_of_rooted_clean getwd _ ?_
      intro e he
      rcases List.mem_cons.1 he with rfl | he
      · exact hid
      · exact hS e he
  · rcases hwd with h | ⟨wd, hgw, hwabs⟩
    · exact absurd h habs
    obtain ⟨w, hw⟩ := (IsAbs_iff wd).1 hwabs
    have hwne : wd ≠ "" := by
      intro h; rw [h] at hw; simp at hw
    have hSw : ∀ e ∈ (splitSlash w).foldl (cleanStep true) [], plainElem e :=
      foldl_cleanStep_rooted_plain _ [] (by simp) (not_mem_of_mem_splitSlash w)
    have hS : ∀ e ∈ (splitSlash dir.data).foldl (cleanStep true)
        ((splitSlash w).foldl (cleanStep true) []), plainElem e :=
      foldl_cleanStep_rooted_plain _ _ hSw (not_mem_of_mem_splitSlash dir.data)
    refine ⟨(splitSlash dir.data).foldl (cleanStep true)
        ((splitSlash w).foldl (cleanStep true) []), hS, ?_, ?_⟩
    · have habs2 : IsAbs dir = false := by simpa using habs
      simp only [Abs, habs2, hgw, Bool.false_eq_true, if_false]
      rw [Join_pair_of_ne _ _ hwne, Clean_rooted_join wd dir w hw]
    · -- the joined relative path
      have hJ : ∃ T : List (List Char), (∀ e ∈ T, keptElem e) ∧
          Join [dir, info.Id] = ⟨joinElems (info.Id.data :: T).reverse⟩ ∧
          T.reverse.foldl (cleanStep true) ((splitSlash w).foldl (cleanStep true) [])
            = (splitSlash dir.data).foldl (cleanStep true)
                ((splitSlash w).foldl (cleanStep true) []) := by
        by_cases hd : dir = ""
        · refine ⟨[], by simp, ?_, ?_⟩
          · rw [hd, Join_pair_empty _ hidne]
            apply String.ext
            show cleanChars info.Id.data = _
            have hrel : info.Id.data.head? ≠ some '/' := by
              intro h
              exact hid.2.2.2 (List.mem_of_mem_head? h)
            rw [cleanChars_relative _ hid.1 hrel, hsplit]
            simp [cleanStep_plain _ _ _ hid, joinElems]
          · rw [hd]; simp [splitSlash, cleanStep_nil]
        · have hdd : dir.data ≠ [] := data_ne_nil_of_ne_empty dir hd
          have hrel : dir.data.head? ≠ some '/' := by
            intro h
            apply habs
            unfold IsAbs
            simp [h]
          have hT : ∀ e ∈ (splitSlash dir.data).foldl (cleanStep false) [], keptElem e :=
            foldl_cleanStep_kept false _ [] (by simp) (not_mem_of_mem_splitSlash dir.data)
          refine ⟨(splitSlash dir.data).foldl (cleanStep false) [], hT, ?_, ?_⟩
          · rw [Join_pair_of_ne _ _ hd]
            apply String.ext
            show cleanChars (dir ++ "/" ++ info.Id).data = _
            have e : (dir ++ "/" ++ info.Id).data = dir.data ++ '/' :: info.Id.data := by
              simp [String.data_append]
            have hne2 : dir.data ++ '/' :: info.Id.data ≠ [] := by simp
            have hrel2 : (dir.data ++ '/' :: info.Id.data).head? ≠ some '/' := by
              cases hdata : dir.data with
              | nil => exact absurd hdata hdd
              | cons c cs =>
                rw [hdata] at hrel
                simpa using hrel
            rw [e, cleanChars_relative _ hne2 hrel2, splitSlash_append_slash, hsplit,
              List.foldl_append, List.foldl_cons, List.foldl_nil, cleanStep_plain _ _ _ hid]
            simp
          · have := foldl_cleanStep_relative (splitSlash dir.data)
              ((splitSlash w).foldl (cleanStep true) []) [] (by simp)
              (not_mem_of_mem_splitSlash dir.data)
            simpa using this
      obtain ⟨T, hT, hJeq, hfold⟩ := hJ
      have hkept : ∀ e ∈ (info.Id.data :: T).reverse, keptElem e := by
        intro e he
        rcases List.mem_cons.1 (List.mem_reverse.1 he) with rfl | he
        · exact hid.kept
        · exact hT e he
      have hJrel : IsAbs ⟨joinElems (info.Id.data :: T).reverse⟩ = false := by
        have := head?_joinElems _ hkept
        unfold IsAbs
        simpa using this
      unfold generateFilepath
      rw [hJeq]
      simp only [Abs, hJrel, hgw, Bool.false_eq_true, if_false]
      rw [Join_pair_of_ne _ _ hwne, Clean_rooted_join wd _ w hw]
      show (⟨_⟩ : String) = ⟨_⟩
      rw [splitSlash_joinElems _ (by simp) (fun e he => (hkept e he).2.2),
        List.reverse_cons, List.foldl_append, List.foldl_cons, List.foldl_nil, hfold,
        cleanStep_plain _ _ _ hid]

/-! ## Decider and local store: lemmas -/

/-- `os.Stat` fails with `ErrNotExist` exactly when the lookup of the path
does not fail on the way and no entry is at the path. -/
theorem osIsNotExist_osStat (w : World) (name : String) :
    osIsNotExist (osStat w name) = true ↔ pathFault w name = none ∧ w.fs name = none := by
  unfold osStat
  cases hp : pathFault w name with
  | some text => simp [osIsNotExist]
  | none => cases h : w.fs name <;> simp [osIsNotExist]

theorem osIsNotExist_osStat_of_entry (w : World) (name : String) (e : Entry)
    (h : w.fs name = some e) : osIsNotExist (osStat w name) = false := by
  unfold osStat
  cases hp : pathFault w name with
  | some text => simp [osIsNotExist]
  | none => simp [h, osIsNotExist]

theorem wantToDownload_fst (handler : waHandler) (w : World) (info : MessageInfo) :
    (wantToDownload handler w info).1
      = generateFilepath w.getwd handler.downloadsDirectory info := rfl

theorem wantToDownload_snd_eq (handler : waHandler) (w : World) (info : MessageInfo) :
    (wantToDownload handler w info).2
      = osIsNotExist (osStat w (generateFilepath w.getwd handler.downloadsDirectory info)) :=
  rfl

theorem wantToDownload_snd (handler : waHandler) (w : World) (info : MessageInfo) :
    (wantToDownload handler w info).2 = true
      ↔ pathFault w (generateFilepath w.getwd handler.downloadsDirectory info) = none ∧
        w.fs (generateFilepath w.getwd handler.downloadsDirectory info) = none := by
  unfold wantToDownload
  exact osIsNotExist_osStat w _

theorem wantToDownload_snd_false (handler : waHandler) (w : World) (info : MessageInfo)
    (e : Entry)
    (hentry : w.fs (generateFilepath w.getwd handler.downloadsDirectory info) = some e) :
    (wantToDownload handler w info).2 = false := by
  rw [wantToDownload_snd_eq]
  exact osIsNotExist_osStat_of_entry w _ e hentry

theorem wantToDownload_eq (handler : waHandler) (w : World) (info : MessageInfo) :
    wantToDownload handler w info
      = (generateFilepath w.getwd handler.downloadsDirectory info,
          (wantToDownload handler w info).2) := rfl

theorem osCreate_of_pathFault (w : World) (name text : String)
    (h : pathFault w name = some text) :
    osCreate w name = (w, some (.other ("open " ++ name ++ ": " ++ text))) := by
  simp [osCreate, h]

theorem osCreate_cases (w : World) (name : String) :
    (∃ err, osCreate w name = (w, some err)) ∨
      (pathFault w name = none ∧
        osCreate w name = (w.setFs (fsUpdate w.fs name (.file [])), none)) := by
  unfold osCreate
  cases hp : pathFault w name with
  | some text => left; exact ⟨_, rfl⟩
  | none =>
    cases h : w.fs name with
    | none =>
      cases hc : w.createFault name with
      | none => right; exact ⟨rfl, rfl⟩
      | some err => left; exact ⟨err, rfl⟩
    | some e =>
      cases e with
      | dir => left; exact ⟨_, rfl⟩
      | file c =>
        cases hc : w.createFault name with
        | none => right; exact ⟨rfl, rfl⟩
        | some err => left; exact ⟨err, rfl⟩

theorem fileWrite_cases (w : World) (name : String) (data : Bytes) :
    (∃ n err, fileWrite w name data
        = (w.setFs (fsUpdate w.fs name (.file (data.take n))), some err)) ∨
      fileWrite w name data = (w.setFs (fsUpdate w.fs name (.file data)), none) := by
  unfold fileWrite
  cases h : w.writeFault name data with
  | none => right; rfl
  | some p => left; exact ⟨p.1, p.2, rfl⟩

/-- The three ways `storeDownloadedData` ends: the file could not be
created, the write failed part-way, or the file holds the data. -/
theorem storeDownloadedData_cases (handler : waHandler) (w : World) (filename : String)
    (data : Bytes) :
    (∃ err, storeDownloadedData handler w filename data
        = (osMkdirAll w handler.downloadsDirectory, some err)) ∨
    (∃ n err, storeDownloadedData handler w filename data
        = (((osMkdirAll w handler.downloadsDirectory).setFs
              (fsUpdate (osMkdirAll w handler.downloadsDirectory).fs filename (.file []))).setFs
            (fsUpdate (fsUpdate (osMkdirAll w handler.downloadsDirectory).fs filename
              (.file [])) filename (.file (data.take n))), some err)) ∨
    storeDownloadedData handler w filename data
        = (((osMkdirAll w handler.downloadsDirectory).setFs
              (fsUpdate (osMkdirAll w handler.downloadsDirectory).fs filename (.file []))).setFs
            (fsUpdate (fsUpdate (osMkdirAll w handler.downloadsDirectory).fs filename
              (.file [])) filename (.file data)), none) := by
  unfold storeDownloadedData
  rcases osCreate_cases (osMkdirAll w handler.downloadsDirectory) filename with
    ⟨err, hc⟩ | ⟨_, hc⟩
  · left; exact ⟨_, by simp only [hc]; rfl⟩
  · right
    rcases fileWrite_cases
      ((osMkdirAll w handler.downloadsDirectory).setFs
        (fsUpdate (osMkdirAll w handler.downloadsDirectory).fs filename (.file [])))
      filename data with ⟨n, err, hw⟩ | hw
    · left; exact ⟨n, _, by simp only [hc, hw]; rfl⟩
    · right; simp only [hc, hw]; rfl

theorem storeDownloadedData_frame (handler : waHandler) (w : World) (filename : String)
    (data : Bytes) :
    (storeDownloadedData handler w filename data).1.presented = w.presented ∧
    (storeDownloadedData handler w filename data).1.downloads = w.downloads ∧
    (storeDownloadedData handler w filename data).1.getwd = w.getwd := by
  rcases storeDownloadedData_cases handler w filename data with
    ⟨err, h⟩ | ⟨n, err, h⟩ | h <;> rw [h] <;> exact ⟨rfl, rfl, rfl⟩

/-- After a store that reports no error the file holds exactly the data. -/
theorem storeDownloadedData_ok (handler : waHandler) (w : World) (filename : String)
    (data : Bytes) (h : (storeDownloadedData handler w filename data).2 = none) :
    (storeDownloadedData handler w filename data).1.fs filename = some (.file data) := by
  rcases storeDownloadedData_cases handler w filename data with
    ⟨err, h2⟩ | ⟨n, err, h2⟩ | h2 <;> rw [h2] at h ⊢
  · simp at h
  · simp at h
  · simp [fsUpdate, World.setFs]

theorem mkdirChain_cons_dir (fault : String → Bool) (q : String) (qs : List String)
    (fs : String → Option Entry) (hq : fs q = some .dir) :
    mkdirChain fault (q :: qs) fs = mkdirChain fault qs fs := by
  simp [mkdirChain, hq]

theorem mkdirChain_cons_file (fault : String → Bool) (q : String) (qs : List String)
    (fs : String → Option Entry) (c : Bytes) (hq : fs q = some (.file c)) :
    mkdirChain fault (q :: qs) fs = fs := by
  simp [mkdirChain, hq]

theorem mkdirChain_cons_fault (fault : String → Bool) (q : String) (qs : List String)
    (fs : String → Option Entry) (hq : fs q = none) (hf : fault q = true) :
    mkdirChain fault (q :: qs) fs = fs := by
  simp [mkdirChain, hq, hf]

theorem mkdirChain_cons_make (fault : String → Bool) (q : String) (qs : List String)
    (fs : String → Option Entry) (hq : fs q = none) (hf : fault q = false) :
    mkdirChain fault (q :: qs) fs = mkdirChain fault qs (fsUpdate fs q .dir) := by
  simp [mkdirChain, hq, hf]

/-- The directory creation of `os.MkdirAll` changes nothing but for missing
directories of the chain, which it may make. -/
theorem mkdirChain_cases (fault : String → Bool) (ps : List String) :
    ∀ (fs : String → Option Entry) (p : String),
      mkdirChain fault ps fs p = fs p ∨
        (fs p = none ∧ mkdirChain fault ps fs p = some .dir ∧ p ∈ ps) := by
  induction ps with
  | nil => intro fs p; exact Or.inl rfl
  | cons q qs ih =>
    intro fs p
    cases hq : fs q with
    | some e =>
      cases e with
      | dir =>
        rw [mkdirChain_cons_dir fault q qs fs hq]
        rcases ih fs p with h | ⟨h1, h2, h3⟩
        · exact Or.inl h
        · exact Or.inr ⟨h1, h2, List.mem_cons_of_mem _ h3⟩
      | file c =>
        rw [mkdirChain_cons_file fault q qs fs c hq]
        exact Or.inl rfl
    | none =>
      cases hf : fault q with
      | true =>
        rw [mkdirChain_cons_fault fault q qs fs hq hf]
        exact Or.inl rfl
      | false =>
        rw [mkdirChain_cons_make fault q qs fs hq hf]
        by_cases hpq : p = q
        · subst hpq
          rcases ih (fsUpdate fs p .dir) p with h | ⟨h1, _, _⟩
          · right
            refine ⟨hq, ?_, List.mem_cons_self _ _⟩
            rw [h]
            simp [fsUpdate]
          · simp [fsUpdate] at h1
        · have hup : fsUpdate fs q .dir p = fs p := by simp [fsUpdate, hpq]
          rcases ih (fsUpdate fs q .dir) p with h | ⟨h1, h2, h3⟩
          · exact Or.inl (h.trans hup)
          · exact Or.inr ⟨hup ▸ h1, h2, List.mem_cons_of_mem _ h3⟩

theorem mkdirChain_keeps (fault : String → Bool) (ps : List String)
    (fs : String → Option Entry) (p : String) (e : Entry) (h : fs p = some e) :
    mkdirChain fault ps fs p = some e := by
  rcases mkdirChain_cases fault ps fs p with h2 | ⟨h2, _, _⟩
  · rw [h2, h]
  · rw [h] at h2
    simp at h2

/-- A walk that fails keeps failing when entries are added to the
filesystem and none is taken away or changed. -/
theorem walkFault_mono (fs fs2 : String → Option Entry)
    (hmono : ∀ p e, fs p = some e → fs2 p = some e) (es : List (List Char)) :
    ∀ dir : List Char, (walkFault fs dir es).isSome = true →
      (walkFault fs2 dir es).isSome = true := by
  induction es with
  | nil => intro dir h; simp [walkFault] at h
  | cons e es ih =>
    intro dir h
    unfold walkFault at h ⊢
    by_cases hlong : 255 < byteLength e ∧ (dir = [] ∨ fs ⟨dir⟩ = some .dir)
    · have hlong2 : 255 < byteLength e ∧ (dir = [] ∨ fs2 ⟨dir⟩ = some .dir) :=
        ⟨hlong.1, hlong.2.imp id (hmono _ _)⟩
      rw [if_pos hlong2]
      rfl
    · rw [if_neg hlong] at h
      by_cases hlong2 : 255 < byteLength e ∧ (dir = [] ∨ fs2 ⟨dir⟩ = some .dir)
      · rw [if_pos hlong2]
        rfl
      · rw [if_neg hlong2]
        cases es with
        | nil => simp at h
        | cons e2 rest =>
          simp only [] at h ⊢
          cases hfs : fs ⟨dir ++ '/' :: e⟩ with
          | some en =>
            rw [hmono _ _ hfs]
            cases en with
            | file c => rfl
            | dir =>
              rw [hfs] at h
              exact ih _ h
          | none =>
            rw [hfs] at h
            cases hfs2 : fs2 ⟨dir ++ '/' :: e⟩ with
            | none => exact ih _ h
            | some en =>
              cases en with
              | file c => rfl
              | dir => exact ih _ h

theorem pathFault_mono (w : World) (fs2 : String → Option Entry)
    (hmono : ∀ p e, w.fs p = some e → fs2 p = some e) (name : String)
    (h : (pathFault w name).isSome = true) :
    (pathFault (w.setFs fs2) name).isSome = true := by
  unfold pathFault at h ⊢
  by_cases h0 : Char.ofNat 0 ∈ name.data
  · rw [if_pos h0]; rfl
  rw [if_neg h0] at h ⊢
  by_cases h1 : 4096 ≤ byteLength name.data
  · rw [if_pos h1]; rfl
  rw [if_neg h1] at h ⊢
  cases hd : name.data with
  | nil =>
    rw [hd] at h
    exact h
  | cons c q =>
    rw [hd] at h
    by_cases hc : c = '/'
    · subst hc
      simp only [] at h ⊢
      cases hw : walkFault w.fs [] (splitSlash q) with
      | some text =>
        have h2 := walkFault_mono w.fs fs2 hmono (splitSlash q) [] (by rw [hw]; rfl)
        show (match walkFault fs2 [] (splitSlash q) with
          | some text => some text
          | none => w.lookupFault name).isSome = true
        cases hw2 : walkFault fs2 [] (splitSlash q) with
        | some t2 => rfl
        | none => rw [hw2] at h2; simp at h2
      | none =>
        rw [hw] at h
        show (match walkFault fs2 [] (splitSlash q) with
          | some text => some text
          | none => w.lookupFault name).isSome = true
        cases hw2 : walkFault fs2 [] (splitSlash q) with
        | some t2 => rfl
        | none => exact h
    · have e1 : ∀ fs3 : String → Option Entry,
          (match c :: q with
            | '/' :: q => walkFault fs3 [] (splitSlash q)
            | _ => none) = none := by
        intro fs3
        split
        · rename_i heq
          simp only [List.cons.injEq] at heq
          exact absurd heq.1 hc
        · rfl
      rw [e1] at h
      show (match (match c :: q with
            | '/' :: q => walkFault fs2 [] (splitSlash q)
            | _ => none) with
          | some text => some text
          | none => w.lookupFault name).isSome = true
      rw [e1]
      exact h

/-- A store that returns nil shows that the lookup of the path did not fail
before the call either. -/
theorem pathFault_none_of_storeDownloadedData_ok (handler : waHandler) (w : World)
    (filename : String) (data : Bytes)
    (h : (storeDownloadedData handler w filename data).2 = none) :
    pathFault w filename = none := by
  cases hp : pathFault w filename with
  | none => rfl
  | some text =>
    exfalso
    have hmono : (pathFault (osMkdirAll w handler.downloadsDirectory) filename).isSome
        = true :=
      pathFault_mono w _ (fun p e hpe => mkdirChain_keeps _ _ _ p e hpe) filename
        (by rw [hp]; rfl)
    cases hp2 : pathFault (osMkdirAll w handler.downloadsDirectory) filename with
    | none => rw [hp2] at hmono; simp at hmono
    | some t2 =>
      simp only [storeDownloadedData, osCreate_of_pathFault _ _ _ hp2] at h
      simp at h

theorem wantToDownload_of_not_exist (handler : waHandler) (w : World) (info : MessageInfo)
    (hstat : osIsNotExist
      (osStat w (generateFilepath w.getwd handler.downloadsDirectory info)) = true) :
    wantToDownload handler w info
      = (generateFilepath w.getwd handler.downloadsDirectory info, true) := by
  rw [wantToDownload_eq, wantToDownload_snd_eq, hstat]

theorem wantToDownload_of_entry (handler : waHandler) (w : World) (info : MessageInfo)
    (e : Entry)
    (hentry : w.fs (generateFilepath w.getwd handler.downloadsDirectory info) = some e) :
    wantToDownload handler w info
      = (generateFilepath w.getwd handler.downloadsDirectory info, false) := by
  rw [wantToDownload_eq, wantToDownload_snd_false handler w info e hentry]

theorem storeDownloadedData_after_call (handler : waHandler) (w : World)
    (message : downloadable) (filename : String) (data : Bytes) :
    (storeDownloadedData handler (callDownload w message).1 filename data).1.presented
        = w.presented ∧
    (storeDownloadedData handler (callDownload w message).1 filename data).1.downloads
        = w.downloads + 1 := by
  have h := storeDownloadedData_frame handler (callDownload w message).1 filename data
  exact ⟨h.1, h.2.1⟩

theorem not_saneRune_slash : ¬ saneRune '/' := by decide
theorem not_saneRune_dot : ¬ saneRune '.' := by decide
theorem not_saneRune_backslash : ¬ saneRune '\\' := by decide

theorem isSaneId_iff_saneRune (s : String) :
    isSaneId s = true ↔ ∀ r ∈ s.data, saneRune r := isSaneIdLoop_iff s.data

/-- A sane identifier that is not empty is one plain path element. -/
theorem plainElem_of_isSaneId (s : String) (hsane : isSaneId s = true) (hne : s ≠ "") :
    plainElem s.data := by
  have h := (isSaneId_iff_saneRune s).1 hsane
  have hdot : '.' ∉ s.data := fun hm => not_saneRune_dot (h _ hm)
  refine ⟨data_ne_nil_of_ne_empty s hne, ?_, ?_, fun hm => not_saneRune_slash (h _ hm)⟩
  · intro he; exact hdot (by simp [he])
  · intro he; exact hdot (by simp [he])

/-! ## C1: Identifier validator -/

/-- C1: for every string `s`, `isSaneId s` is true exactly when every rune of
`s` is an uppercase ASCII letter `A`..`Z` or a digit `0`..`9`; the empty
string is accepted, and a string with a rune outside that set (such as `.`,
`/`, `\`, a blank or a lowercase letter) is rejected. -/
theorem isSaneId_iff_upper_or_digit (s : String) :
    (isSaneId s = true ↔ ∀ r ∈ s.data, ('A' ≤ r ∧ r ≤ 'Z') ∨ ('0' ≤ r ∧ r ≤ '9')) ∧
    isSaneId "" = true ∧
    (isSaneId s = false ↔ ∃ r ∈ s.data, ¬ (('A' ≤ r ∧ r ≤ 'Z') ∨ ('0' ≤ r ∧ r ≤ '9'))) ∧
    isSaneId "." = false ∧ isSaneId "/" = false ∧ isSaneId "\\" = false ∧
    isSaneId " " = false ∧ isSaneId "a" = false ∧ isSaneId "AB/C" = false := by
  have h := isSaneId_iff_saneRune s
  refine ⟨h, by decide, ?_, by decide, by decide, by decide, by decide, by decide, by decide⟩
  rw [← Bool.not_eq_true, h]
  simp only [saneRune, not_forall, exists_prop]

/-! ## C2: Sanity gate -/

/-- C2 as it stands fails: the identifier `ABC123/x` is not sane and leads
below the stored file `ABC123`; no entry exists at the resolved path, yet
`os.Stat` fails with `not a directory`, `wantToDownload` answers `false`,
and with downloads enabled nothing is presented. -/
theorem presentDownloadableMessage_unsane_id_below_file :
    isSaneId infoBelowStored.Id = false ∧
    storedWorld.fs
        (generateFilepath storedWorld.getwd sampleHandler.downloadsDirectory infoBelowStored)
      = none ∧
    wantToDownload sampleHandler storedWorld infoBelowStored
      = ("/home/user/dl/ABC123/x", false) ∧
    (presentDownloadableMessage sampleHandler storedWorld goodMedia infoBelowStored true
        false false).1.presented = [] := by
  decide

/-- C2, amended: an identifier that is not sane, with downloads enabled and
`os.Stat` reporting that nothing exists at the resolved path (its error is
`ErrNotExist`, so that `wantToDownload` answers `true`): `Download()` is not
invoked, the filesystem is unchanged, exactly one notification is emitted, a
conversation error whose text names the identifier and contains "looks not
sane", the function returns nil, and `wantToDownload` for the same
identifier still answers `true`. -/
theorem presentDownloadableMessage_unsane_id (handler : waHandler) (w : World)
    (message : downloadable) (info : MessageInfo) (storeFailedDownload inline : Bool)
    (hsane : isSaneId info.Id = false)
    (hstat : osIsNotExist
      (osStat w (generateFilepath w.getwd handler.downloadsDirectory info)) = true) :
    (presentDownloadableMessage handler w message info true storeFailedDownload inline).1.downloads
        = w.downloads ∧
    (presentDownloadableMessage handler w message info true storeFailedDownload inline).1.fs
        = w.fs ∧
    (∃ text : String,
      (presentDownloadableMessage handler w message info true storeFailedDownload
          inline).1.presented = w.presented ++ [.conversationError info text] ∧
      (∃ pre post : String, text = pre ++ info.Id ++ post) ∧
      (∃ pre post : String, text = pre ++ "looks not sane" ++ post)) ∧
    (presentDownloadableMessage handler w message info true storeFailedDownload inline).2
        = none ∧
    (wantToDownload handler
        (presentDownloadableMessage handler w message info true storeFailedDownload inline).1
        info).2 = true := by
  have hrun : presentDownloadableMessage handler w message info true storeFailedDownload inline
      = (presentMessage w (.conversationError info
          ("A media message (ID " ++ info.Id
            ++ ") was received, but ID looks not sane – downloading skipped.")), none) := by
    unfold presentDownloadableMessage
    rw [wantToDownload_of_not_exist handler w info hstat]
    simp [hsane]
  rw [hrun]
  refine ⟨rfl, rfl, ⟨_, rfl, ⟨"A media message (ID ",
    ") was received, but ID looks not sane – downloading skipped.", rfl⟩,
    ⟨"A media message (ID " ++ info.Id ++ ") was received, but ID ",
      " – downloading skipped.", ?_⟩⟩, rfl, ?_⟩
  · apply String.ext
    simp [String.data_append]
  · exact hstat

/-- The amended C2 at the identifier `bad/id` in a world with an empty
filesystem. -/
theorem presentDownloadableMessage_unsane_id_witness :
    isSaneId infoBadId.Id = false ∧
    (presentDownloadableMessage sampleHandler quietWorld goodMedia infoBadId true false
        false).1.downloads = quietWorld.downloads ∧
    (presentDownloadableMessage sampleHandler quietWorld goodMedia infoBadId true false
        false).1.fs = quietWorld.fs ∧
    (presentDownloadableMessage sampleHandler quietWorld goodMedia infoBadId true false
        false).2 = none ∧
    (wantToDownload sampleHandler
        (presentDownloadableMessage sampleHandler quietWorld goodMedia infoBadId true false
          false).1 infoBadId).2 = true :=
  have h := presentDownloadableMessage_unsane_id sampleHandler quietWorld goodMedia infoBadId
    false false (by decide) (by decide)
  ⟨by decide, h.1, h.2.1, h.2.2.2.1, h.2.2.2.2⟩

/-! ## C3: Path resolver -/

/-- C3 as it stands fails: for the root as downloads directory the result is
`/ABC`, not the directory `/` followed by a separator and `ABC`; and when the
working directory cannot be found, a relative downloads directory resolves
to the empty path. -/
theorem generateFilepath_not_always_dir_sep_id :
    isSaneId "ABC" = true ∧
    (Abs (.ok "/home/user") "/").1 = "/" ∧
    generateFilepath (.ok "/home/user") "/" { Id := "ABC" } = "/ABC" ∧
    generateFilepath (.ok "/home/user") "/" { Id := "ABC" }
      ≠ (Abs (.ok "/home/user") "/").1 ++ "/" ++ "ABC" ∧
    generateFilepath (.error "getwd: no such file or directory") "dl" { Id := "ABC" } = "" := by
  decide

/-- C3, amended: for a sane identifier that is not empty and a downloads
directory whose absolute form `filepath.Abs` can determine (the directory is
absolute, or the working directory is known and rooted), `generateFilepath`
returns that absolute form followed by the identifier unchanged, with
exactly one separator between the two: the one the absolute form ends in
when it is the root `/`, an added one otherwise. The identifier holds no
`/`, `\` or `.`, so the path is a direct child of the downloads directory. -/
theorem generateFilepath_sane_child (getwd : Except String String) (dir : String)
    (info : MessageInfo) (hsane : isSaneId info.Id = true) (hne : info.Id ≠ "")
    (hwd : IsAbs dir = true ∨ ∃ wd, getwd = .ok wd ∧ IsAbs wd = true) :
    generateFilepath getwd dir info
      = (if (Abs getwd dir).1 = "/" then "/" ++ info.Id
         else (Abs getwd dir).1 ++ "/" ++ info.Id) ∧
    '/' ∉ info.Id.data ∧ '\\' ∉ info.Id.data ∧ '.' ∉ info.Id.data := by
  have hall := (isSaneId_iff_saneRune info.Id).1 hsane
  have hplain := plainElem_of_isSaneId info.Id hsane hne
  refine ⟨?_, fun hm => not_saneRune_slash (hall _ hm),
    fun hm => not_saneRune_backslash (hall _ hm), fun hm => not_saneRune_dot (hall _ hm)⟩
  obtain ⟨S, hS, hAbs, hgen⟩ := generateFilepath_stack getwd dir info hplain hwd
  rw [hgen, hAbs]
  by_cases hnil : S = []
  · subst hnil
    have e : (⟨'/' :: joinElems ([] : List (List Char)).reverse⟩ : String) = "/" := rfl
    rw [if_pos e]
    apply String.ext
    simp [joinElems, String.data_append]
  · have hj : joinElems S.reverse ≠ [] := by
      intro hj
      have := joinElems_eq_nil S.reverse (fun e he => (hS e (by simpa using he)).1) hj
      exact hnil (by simpa using this)
    have e : (⟨'/' :: joinElems S.reverse⟩ : String) ≠ "/" := by
      intro h
      have := congrArg String.data h
      simp at this
      exact hj this
    rw [if_neg e]
    apply String.ext
    rw [List.reverse_cons, joinElems_append_singleton]
    simp [String.data_append, hnil]

/-- The amended C3 at the downloads directory `dl` under `/home/user`. -/
theorem generateFilepath_sane_child_witness :
    isSaneId infoABC123.Id = true ∧
    generateFilepath (.ok "/home/user") "dl" infoABC123 = "/home/user/dl/ABC123" :=
  ⟨by decide,
    (generateFilepath_sane_child (.ok "/home/user") "dl" infoABC123 (by decide) (by decide)
      (Or.inr ⟨"/home/user", rfl, by decide⟩)).1.trans (by decide)⟩

/-! ## C4: Terminal outcomes -/

/-- C4: for every message, identifier, combination of the three flags,
download result and world, one invocation of `presentDownloadableMessage`
hands at most one notification to `presentMessage`, and exactly one of the
terminal outcomes (already handled, downloads disabled, unsafe identifier,
download failed, inline return, store failed, stored) occurs. -/
theorem presentDownloadableMessage_one_outcome (handler : waHandler) (w : World)
    (message : downloadable) (info : MessageInfo)
    (downloadsEnabled storeFailedDownload inline : Bool) :
    (∃ l : List NotificationEvent,
      (presentDownloadableMessage handler w message info downloadsEnabled
          storeFailedDownload inline).1.presented = w.presented ++ l ∧ l.length ≤ 1) ∧
    ∃! o : Outcome,
      o.occurs handler w message info
        (presentDownloadableMessage handler w message info downloadsEnabled
          storeFailedDownload inline).1
        (presentDownloadableMessage handler w message info downloadsEnabled
          storeFailedDownload inline).2 := by
  unfold presentDownloadableMessage
  rw [wantToDownload_eq]
  cases hwtd : (wantToDownload handler w info).2
  · -- already handled
    simp only [Bool.false_eq_true, if_false]
    refine ⟨⟨[], by simp, by simp⟩, .alreadyHandled, ⟨rfl, rfl, rfl, rfl⟩, ?_⟩
    intro o ho
    cases o <;> simp [Outcome.occurs] at ho ⊢
  · simp only [if_true]
    cases downloadsEnabled
    · -- downloads disabled
      simp only [Bool.false_eq_true, if_false]
      refine ⟨⟨[_], rfl, by simp⟩, .downloadsDisabled, ⟨rfl, rfl, rfl, rfl⟩, ?_⟩
      intro o ho
      cases o <;> simp [Outcome.occurs, presentMessage] at ho ⊢
    · simp only [if_true]
      cases hsane : isSaneId info.Id
      · -- unsafe identifier
        simp only [Bool.false_eq_true, if_false]
        refine ⟨⟨[_], rfl, by simp⟩, .unsafeIdentifier, ⟨rfl, rfl, rfl, rfl⟩, ?_⟩
        intro o ho
        cases o <;> simp [Outcome.occurs, presentMessage] at ho ⊢
      · simp only [if_true]
        cases hd : message.Download.2 with
        | some err =>
          -- download failed
          have hcall : callDownload w message
              = ((callDownload w message).1, message.Download.1, some err) := by
            simp [callDownload, hd]
          rw [hcall]
          simp only []
          cases storeFailedDownload
          · simp only [Bool.false_eq_true, if_false]
            refine ⟨⟨[_], rfl, by simp⟩, .downloadFailed, ⟨rfl, rfl, err, _, hd, rfl⟩, ?_⟩
            intro o ho
            cases o <;> simp [Outcome.occurs, presentMessage, callDownload, hd] at ho ⊢
          · simp only [if_true]
            have hfr := storeDownloadedData_after_call handler w message
              (generateFilepath w.getwd handler.downloadsDirectory info) []
            cases hs : (storeDownloadedData handler (callDownload w message).1
              (generateFilepath w.getwd handler.downloadsDirectory info) []).2 with
            | some serr =>
              have hres : storeDownloadedData handler (callDownload w message).1
                  (generateFilepath w.getwd handler.downloadsDirectory info) []
                  = ((storeDownloadedData handler (callDownload w message).1
                      (generateFilepath w.getwd handler.downloadsDirectory info) []).1,
                    some serr) := by
                rw [← hs]
              rw [hres]
              simp only []
              refine ⟨⟨[_], by simp only [presentMessage, hfr.1]; rfl, by simp⟩,
                .downloadFailed, ⟨hfr.2, rfl, err, _, hd,
                  by simp only [presentMessage, hfr.1]; rfl⟩, ?_⟩
              intro o ho
              cases o <;>
                simp [Outcome.occurs, presentMessage, hd, hfr.1, hfr.2] at ho ⊢
            | none =>
              have hres : storeDownloadedData handler (callDownload w message).1
                  (generateFilepath w.getwd handler.downloadsDirectory info) []
                  = ((storeDownloadedData handler (callDownload w message).1
                      (generateFilepath w.getwd handler.downloadsDirectory info) []).1,
                    none) := by
                rw [← hs]
              rw [hres]
              simp only []
              refine ⟨⟨[_], by simp only [presentMessage, hfr.1]; rfl, by simp⟩,
                .downloadFailed, ⟨hfr.2, rfl, err, _, hd,
                  by simp only [presentMessage, hfr.1]; rfl⟩, ?_⟩
              intro o ho
              cases o <;>
                simp [Outcome.occurs, presentMessage, hd, hfr.1, hfr.2] at ho ⊢
        | none =>
          have hcall : callDownload w message
              = ((callDownload w message).1, message.Download.1, none) := by
            simp [callDownload, hd]
          rw [hcall]
          simp only []
          cases inline
          · simp only [Bool.false_eq_true, if_false]
            have hfr := storeDownloadedData_after_call handler w message
              (generateFilepath w.getwd handler.downloadsDirectory info) message.Download.1
            cases hs : (storeDownloadedData handler (callDownload w message).1
              (generateFilepath w.getwd handler.downloadsDirectory info)
              message.Download.1).2 with
            | some serr =>
              -- store failed
              have hres : storeDownloadedData handler (callDownload w message).1
                  (generateFilepath w.getwd handler.downloadsDirectory info)
                  message.Download.1
                  = ((storeDownloadedData handler (callDownload w message).1
                      (generateFilepath w.getwd handler.downloadsDirectory info)
                      message.Download.1).1, some serr) := by
                rw [← hs]
              rw [hres]
              simp only []
              refine ⟨⟨[_], by simp only [presentMessage, hfr.1]; rfl, by simp⟩,
                .storeFailed, ⟨hfr.2, hd, rfl, serr,
                  by simp only [presentMessage, hfr.1]⟩, ?_⟩
              intro o ho
              cases o <;>
                simp [Outcome.occurs, presentMessage, hd, hfr.1, hfr.2] at ho ⊢
            | none =>
              -- stored
              have hres : storeDownloadedData handler (callDownload w message).1
                  (generateFilepath w.getwd handler.downloadsDirectory info)
                  message.Download.1
                  = ((storeDownloadedData handler (callDownload w message).1
                      (generateFilepath w.getwd handler.downloadsDirectory info)
                      message.Download.1).1, none) := by
                rw [← hs]
              have hfs := storeDownloadedData_ok handler _ _ _ hs
              rw [hres]
              simp only []
              refine ⟨⟨[_], by simp only [presentMessage, hfr.1]; rfl, by simp⟩,
                .stored, ⟨hfr.2, hd, rfl, hfs,
                  by simp only [presentMessage, hfr.1]⟩, ?_⟩
              intro o ho
              cases o <;>
                simp [Outcome.occurs, presentMessage, hd, hfr.1, hfr.2] at ho ⊢
          · -- inline return
            simp only [if_true]
            refine ⟨⟨[], by simp [callDownload], by simp⟩, .inlineReturn,
              ⟨rfl, hd, rfl, rfl, rfl⟩, ?_⟩
            intro o ho
            cases o <;> simp [Outcome.occurs, callDownload, hd] at ho ⊢

/-! ## C5: Already handled -/

/-- C5: when an entry exists at the resolved path, whatever it holds, then for
every value of the three flags `Download()` is not invoked, no notification
is emitted, the filesystem is unchanged and the function returns nil. -/
theorem presentDownloadableMessage_already_handled (handler : waHandler) (w : World)
    (message : downloadable) (info : MessageInfo)
    (downloadsEnabled storeFailedDownload inline : Bool) (e : Entry)
    (hentry : w.fs (generateFilepath w.getwd handler.downloadsDirectory info) = some e) :
    (presentDownloadableMessage handler w message info downloadsEnabled storeFailedDownload
        inline).1.downloads = w.downloads ∧
    (presentDownloadableMessage handler w message info downloadsEnabled storeFailedDownload
        inline).1.presented = w.presented ∧
    (presentDownloadableMessage handler w message info downloadsEnabled storeFailedDownload
        inline).1.fs = w.fs ∧
    (presentDownloadableMessage handler w message info downloadsEnabled storeFailedDownload
        inline).2 = none := by
  have hrun : presentDownloadableMessage handler w message info downloadsEnabled
      storeFailedDownload inline = (w, none) := by
    unfold presentDownloadableMessage
    rw [wantToDownload_of_entry handler w info e hentry]
    simp
  rw [hrun]
  exact ⟨rfl, rfl, rfl, rfl⟩

/-- C5 at a zero-length placeholder for `ABC123`, with every flag set. -/
theorem presentDownloadableMessage_already_handled_witness :
    (quietWorld.setFs (fsUpdate quietWorld.fs "/home/user/dl/ABC123" (.file []))).fs
        "/home/user/dl/ABC123" = some (.file []) ∧
    (presentDownloadableMessage sampleHandler
        (quietWorld.setFs (fsUpdate quietWorld.fs "/home/user/dl/ABC123" (.file [])))
        goodMedia infoABC123 true true true).1.downloads = 0 ∧
    (presentDownloadableMessage sampleHandler
        (quietWorld.setFs (fsUpdate quietWorld.fs "/home/user/dl/ABC123" (.file [])))
        goodMedia infoABC123 true true true).1.presented = [] ∧
    (presentDownloadableMessage sampleHandler
        (quietWorld.setFs (fsUpdate quietWorld.fs "/home/user/dl/ABC123" (.file [])))
        goodMedia infoABC123 true true true).2 = none :=
  have h := presentDownloadableMessage_already_handled sampleHandler
    (quietWorld.setFs (fsUpdate quietWorld.fs "/home/user/dl/ABC123" (.file [])))
    goodMedia infoABC123 true true true (.file []) (by decide)
  ⟨by decide, h.1, h.2.1, h.2.2.2⟩

/-! ## C6: Downloads disabled -/

/-- C6 as it stands fails: where the path of the downloads directory is
taken by a regular file, no entry exists at the resolved path of `ABC123`,
yet `os.Stat` fails with `not a directory`, `wantToDownload` answers
`false`, and with downloads disabled nothing is presented. -/
theorem presentDownloadableMessage_disabled_blocked :
    blockedWorld.fs
        (generateFilepath blockedWorld.getwd sampleHandler.downloadsDirectory infoABC123)
      = none ∧
    wantToDownload sampleHandler blockedWorld infoABC123
      = ("/home/user/dl/ABC123", false) ∧
    (presentDownloadableMessage sampleHandler blockedWorld goodMedia infoABC123 false
        false false).1.presented = [] := by
  decide

/-- C6, amended: downloads disabled and `os.Stat` reporting that nothing
exists at the resolved path (its error is `ErrNotExist`, so that
`wantToDownload` answers `true`), for an identifier sane or not: exactly one
notification is emitted, a system message with the text "[File download
disabled in settings.]", `Download()` is not invoked, the filesystem is
unchanged, `wantToDownload` still answers `true` afterwards, and the
function returns nil. -/
theorem presentDownloadableMessage_downloads_disabled (handler : waHandler) (w : World)
    (message : downloadable) (info : MessageInfo) (storeFailedDownload inline : Bool)
    (hstat : osIsNotExist
      (osStat w (generateFilepath w.getwd handler.downloadsDirectory info)) = true) :
    (∃ m : MessageAggregate,
      (presentDownloadableMessage handler w message info false storeFailedDownload
          inline).1.presented = w.presented ++ [.message m] ∧
      m.system = true ∧ m.text = "[File download disabled in settings.]") ∧
    (presentDownloadableMessage handler w message info false storeFailedDownload
        inline).1.downloads = w.downloads ∧
    (presentDownloadableMessage handler w message info false storeFailedDownload
        inline).1.fs = w.fs ∧
    (wantToDownload handler
        (presentDownloadableMessage handler w message info false storeFailedDownload inline).1
        info).2 = true ∧
    (presentDownloadableMessage handler w message info false storeFailedDownload
        inline).2 = none := by
  have hrun : presentDownloadableMessage handler w message info false storeFailedDownload
      inline = (presentMessage w
        (.message { text := "[File download disabled in settings.]", system := true }),
        none) := by
    unfold presentDownloadableMessage
    rw [wantToDownload_of_not_exist handler w info hstat]
    simp
  rw [hrun]
  exact ⟨⟨_, rfl, rfl, rfl⟩, rfl, rfl, hstat, rfl⟩

/-- The amended C6 at the identifier `bad/id`, which is not sane. -/
theorem presentDownloadableMessage_downloads_disabled_witness :
    osIsNotExist (osStat quietWorld
      (generateFilepath quietWorld.getwd sampleHandler.downloadsDirectory infoBadId))
      = true ∧
    (presentDownloadableMessage sampleHandler quietWorld goodMedia infoBadId false true
        false).1.downloads = 0 ∧
    (presentDownloadableMessage sampleHandler quietWorld goodMedia infoBadId false true
        false).1.fs = quietWorld.fs ∧
    (presentDownloadableMessage sampleHandler quietWorld goodMedia infoBadId false true
        false).2 = none :=
  have h := presentDownloadableMessage_downloads_disabled sampleHandler quietWorld goodMedia
    infoBadId true false (by decide)
  ⟨by decide, h.2.1, h.2.2.1, h.2.2.2.2⟩

/-! ## C7: Download stored -/

/-- C7: a sane identifier, no entry at the resolved path, downloads enabled,
not inline, a download that succeeds with bytes `b` and a store that
succeeds: the file at the resolved path holds exactly `b`, exactly one
notification is emitted, a system message carrying the message info whose
text is "file://" followed by the resolved path, and the function returns
nil. -/
theorem presentDownloadableMessage_stored (handler : waHandler) (w : World)
    (message : downloadable) (info : MessageInfo) (storeFailedDownload : Bool) (b : Bytes)
    (hsane : isSaneId info.Id = true)
    (hfree : w.fs (generateFilepath w.getwd handler.downloadsDirectory info) = none)
    (hdown : message.Download = (b, none))
    (hstore : (storeDownloadedData handler (callDownload w message).1
        (generateFilepath w.getwd handler.downloadsDirectory info) b).2 = none) :
    (presentDownloadableMessage handler w message info true storeFailedDownload false).1.fs
        (generateFilepath w.getwd handler.downloadsDirectory info) = some (.file b) ∧
    (∃ m : MessageAggregate,
      (presentDownloadableMessage handler w message info true storeFailedDownload
          false).1.presented = w.presented ++ [.message m] ∧
      m.system = true ∧ m.info = info ∧
      m.text = "file://" ++ generateFilepath w.getwd handler.downloadsDirectory info) ∧
    (presentDownloadableMessage handler w message info true storeFailedDownload false).2
        = none := by
  have hstat : osIsNotExist
      (osStat w (generateFilepath w.getwd handler.downloadsDirectory info)) = true :=
    (osIsNotExist_osStat w _).2
      ⟨pathFault_none_of_storeDownloadedData_ok handler (callDownload w message).1 _ b hstore,
        hfree⟩
  have hcall : callDownload w message = ((callDownload w message).1, b, none) := by
    simp [callDownload, hdown]
  have hres : storeDownloadedData handler (callDownload w message).1
      (generateFilepath w.getwd handler.downloadsDirectory info) b
      = ((storeDownloadedData handler (callDownload w message).1
          (generateFilepath w.getwd handler.downloadsDirectory info) b).1, none) := by
    rw [← hstore]
  have hrun : presentDownloadableMessage handler w message info true storeFailedDownload false
      = (presentMessage (storeDownloadedData handler (callDownload w message).1
            (generateFilepath w.getwd handler.downloadsDirectory info) b).1
          (.message ⟨"file://" ++ generateFilepath w.getwd handler.downloadsDirectory info,
            info, true⟩), none) := by
    unfold presentDownloadableMessage
    rw [wantToDownload_of_not_exist handler w info hstat]
    simp only [if_true, hsane]
    rw [hcall]
    simp only [Bool.false_eq_true, if_false]
    rw [hres]
  rw [hrun]
  refine ⟨storeDownloadedData_ok handler _ _ b hstore,
    ⟨⟨"file://" ++ generateFilepath w.getwd handler.downloadsDirectory info, info, true⟩,
      ?_, rfl, rfl, rfl⟩, rfl⟩
  show (storeDownloadedData handler (callDownload w message).1 _ b).1.presented ++ _ = _
  rw [(storeDownloadedData_frame handler _ _ b).1]
  rfl

/-- C7 at the identifier `ABC123`, the bytes `01 02` and the downloads
directory `dl` under `/home/user`. -/
theorem presentDownloadableMessage_stored_witness :
    isSaneId infoABC123.Id = true ∧
    generateFilepath quietWorld.getwd sampleHandler.downloadsDirectory infoABC123
      = "/home/user/dl/ABC123" ∧
    (presentDownloadableMessage sampleHandler quietWorld goodMedia infoABC123 true false
        false).1.fs
      (generateFilepath quietWorld.getwd sampleHandler.downloadsDirectory infoABC123)
      = some (.file [1, 2]) ∧
    (presentDownloadableMessage sampleHandler quietWorld goodMedia infoABC123 true false
        false).2 = none :=
  have h := presentDownloadableMessage_stored sampleHandler quietWorld goodMedia infoABC123
    false [1, 2] (by decide) rfl rfl (by decide)
  ⟨by decide, by decide, h.1, h.2.2⟩

/-! ## C8: Failed download, placeholder stored -/

/-- C8: a sane identifier, no entry at the resolved path, downloads enabled,
a download that fails, `storeFailedDownload` set and a placeholder write
that succeeds: a zero-length file is created at the resolved path, exactly
one notification is emitted, a conversation error whose text holds the
identifier and the download error (and no retry comment), and `wantToDownload` for the same
identifier answers `false` afterwards. -/
theorem presentDownloadableMessage_failed_placeholder (handler : waHandler) (w : World)
    (message : downloadable) (info : MessageInfo) (inline : Bool) (err : String)
    (hsane : isSaneId info.Id = true)
    (hfree : w.fs (generateFilepath w.getwd handler.downloadsDirectory info) = none)
    (hdown : message.Download.2 = some err)
    (hstore : (storeDownloadedData handler (callDownload w message).1
        (generateFilepath w.getwd handler.downloadsDirectory info) []).2 = none) :
    (presentDownloadableMessage handler w message info true true inline).1.fs
        (generateFilepath w.getwd handler.downloadsDirectory info) = some (.file []) ∧
    (presentDownloadableMessage handler w message info true true inline).1.presented
      = w.presented ++ [.conversationError info
          ("A media message (ID " ++ info.Id ++ ") was received, but the download failed: "
            ++ err ++ ". " ++ "")] ∧
    (wantToDownload handler
        (presentDownloadableMessage handler w message info true true inline).1 info).2
      = false := by
  have hstat : osIsNotExist
      (osStat w (generateFilepath w.getwd handler.downloadsDirectory info)) = true :=
    (osIsNotExist_osStat w _).2
      ⟨pathFault_none_of_storeDownloadedData_ok handler (callDownload w message).1 _ [] hstore,
        hfree⟩
  have hcall : callDownload w message
      = ((callDownload w message).1, message.Download.1, some err) := by
    simp [callDownload, hdown]
  have hres : storeDownloadedData handler (callDownload w message).1
      (generateFilepath w.getwd handler.downloadsDirectory info) []
      = ((storeDownloadedData handler (callDownload w message).1
          (generateFilepath w.getwd handler.downloadsDirectory info) []).1, none) := by
    rw [← hstore]
  have hrun : presentDownloadableMessage handler w message info true true inline
      = (presentMessage (storeDownloadedData handler (callDownload w message).1
            (generateFilepath w.getwd handler.downloadsDirectory info) []).1
          (.conversationError info ("A media message (ID " ++ info.Id
            ++ ") was received, but the download failed: " ++ err ++ ". " ++ "")),
          none) := by
    unfold presentDownloadableMessage
    rw [wantToDownload_of_not_exist handler w info hstat]
    simp only [if_true, hsane]
    rw [hcall]
    simp only [if_true]
    rw [hres]
  have hfs := storeDownloadedData_ok handler _ _ [] hstore
  have hfr := storeDownloadedData_frame handler (callDownload w message).1
    (generateFilepath w.getwd handler.downloadsDirectory info) []
  rw [hrun]
  refine ⟨hfs, ?_, ?_⟩
  · show (storeDownloadedData handler (callDownload w message).1 _ []).1.presented ++ _ = _
    rw [hfr.1]
    rfl
  · apply wantToDownload_snd_false _ _ _ (.file [])
    show (storeDownloadedData handler (callDownload w message).1 _ []).1.fs
      (generateFilepath (storeDownloadedData handler (callDownload w message).1 _ []).1.getwd
        handler.downloadsDirectory info) = _
    rw [hfr.2.2]
    exact hfs

/-- C8 at the identifier `ABC123` and a download that fails. -/
theorem presentDownloadableMessage_failed_placeholder_witness :
    isSaneId infoABC123.Id = true ∧
    (presentDownloadableMessage sampleHandler quietWorld badMedia infoABC123 true true
        false).1.fs
      (generateFilepath quietWorld.getwd sampleHandler.downloadsDirectory infoABC123)
      = some (.file []) ∧
    (wantToDownload sampleHandler
        (presentDownloadableMessage sampleHandler quietWorld badMedia infoABC123 true true
          false).1 infoABC123).2 = false :=
  have h := presentDownloadableMessage_failed_placeholder sampleHandler quietWorld badMedia
    infoABC123 false "connection reset" (by decide) rfl rfl (by decide)
  ⟨by decide, h.1, h.2.2⟩

/-! ## C9: Failed download, retry enabled -/

/-- C9 as it stands fails: where the path of the downloads directory is
taken by a regular file, the identifier `ABC123` is sane and no entry exists
at the resolved path, yet `os.Stat` fails with `not a directory`:
`Download()` is not invoked, nothing is presented, and `wantToDownload`
answers `false` afterwards. -/
theorem presentDownloadableMessage_retry_blocked :
    isSaneId infoABC123.Id = true ∧
    blockedWorld.fs
        (generateFilepath blockedWorld.getwd sampleHandler.downloadsDirectory infoABC123)
      = none ∧
    (presentDownloadableMessage sampleHandler blockedWorld badMedia infoABC123 true false
        false).1.downloads = 0 ∧
    (presentDownloadableMessage sampleHandler blockedWorld badMedia infoABC123 true false
        false).1.presented = [] ∧
    (wantToDownload sampleHandler
        (presentDownloadableMessage sampleHandler blockedWorld badMedia infoABC123 true false
          false).1 infoABC123).2 = false := by
  decide

/-- C9, amended: a sane identifier, `os.Stat` reporting that nothing exists
at the resolved path (its error is `ErrNotExist`, so that `wantToDownload`
answers `true`), downloads enabled, a download that fails and
`storeFailedDownload` unset: the filesystem is unchanged, exactly one
notification is emitted, a conversation error whose retry comment is
"Retrying on next occasion is enabled.", and `wantToDownload` for the same
identifier answers `true` again. -/
theorem presentDownloadableMessage_failed_retry (handler : waHandler) (w : World)
    (message : downloadable) (info : MessageInfo) (inline : Bool) (err : String)
    (hsane : isSaneId info.Id = true)
    (hstat : osIsNotExist
      (osStat w (generateFilepath w.getwd handler.downloadsDirectory info)) = true)
    (hdown : message.Download.2 = some err) :
    (presentDownloadableMessage handler w message info true false inline).1.fs = w.fs ∧
    (presentDownloadableMessage handler w message info true false inline).1.presented
      = w.presented ++ [.conversationError info
          ("A media message (ID " ++ info.Id ++ ") was received, but the download failed: "
            ++ err ++ ". " ++ "Retrying on next occasion is enabled.")] ∧
    (wantToDownload handler
        (presentDownloadableMessage handler w message info true false inline).1 info).2
      = true := by
  have hcall : callDownload w message
      = ((callDownload w message).1, message.Download.1, some err) := by
    simp [callDownload, hdown]
  have hrun : presentDownloadableMessage handler w message info true false inline
      = (presentMessage (callDownload w message).1
          (.conversationError info ("A media message (ID " ++ info.Id
            ++ ") was received, but the download failed: " ++ err ++ ". "
            ++ "Retrying on next occasion is enabled.")), none) := by
    unfold presentDownloadableMessage
    rw [wantToDownload_of_not_exist handler w info hstat]
    simp only [if_true, hsane]
    rw [hcall]
    simp
  rw [hrun]
  exact ⟨rfl, rfl, hstat⟩

/-- The amended C9 at the identifier `ABC123` and a download that fails. -/
theorem presentDownloadableMessage_failed_retry_witness :
    isSaneId infoABC123.Id = true ∧
    (presentDownloadableMessage sampleHandler quietWorld badMedia infoABC123 true false
        false).1.fs = quietWorld.fs ∧
    (wantToDownload sampleHandler
        (presentDownloadableMessage sampleHandler quietWorld badMedia infoABC123 true false
          false).1 infoABC123).2 = true :=
  have h := presentDownloadableMessage_failed_retry sampleHandler quietWorld badMedia
    infoABC123 false "connection reset" (by decide) (by decide) rfl
  ⟨by decide, h.1, h.2.2⟩

/-! ## C10: Inline delivery -/

/-- C10 as it stands fails: where the path of the downloads directory is
taken by a regular file, the identifier `ABC123` is sane and no entry exists
at the resolved path, yet `os.Stat` fails with `not a directory`: with
inline delivery and a download that would succeed, `Download()` is not
invoked and the function returns nil. -/
theorem presentDownloadableMessage_inline_blocked :
    isSaneId infoABC123.Id = true ∧
    blockedWorld.fs
        (generateFilepath blockedWorld.getwd sampleHandler.downloadsDirectory infoABC123)
      = none ∧
    goodMedia.Download = ([1, 2], none) ∧
    (presentDownloadableMessage sampleHandler blockedWorld goodMedia infoABC123 true false
        true).1.downloads = 0 ∧
    (presentDownloadableMessage sampleHandler blockedWorld goodMedia infoABC123 true false
        true).2 = none := by
  decide

/-- C10, amended: a sane identifier, `os.Stat` reporting that nothing exists
at the resolved path (its error is `ErrNotExist`, so that `wantToDownload`
answers `true`), downloads enabled, inline delivery and a download that
succeeds with bytes `b`: the function returns exactly `b`, emits no
notification and leaves the filesystem unchanged, so that the identifier is
not memoized. -/
theorem presentDownloadableMessage_inline (handler : waHandler) (w : World)
    (message : downloadable) (info : MessageInfo) (storeFailedDownload : Bool) (b : Bytes)
    (hsane : isSaneId info.Id = true)
    (hstat : osIsNotExist
      (osStat w (generateFilepath w.getwd handler.downloadsDirectory info)) = true)
    (hdown : message.Download = (b, none)) :
    (presentDownloadableMessage handler w message info true storeFailedDownload true).2
      = some b ∧
    (presentDownloadableMessage handler w message info true storeFailedDownload true).1.presented
      = w.presented ∧
    (presentDownloadableMessage handler w message info true storeFailedDownload true).1.fs
      = w.fs ∧
    (wantToDownload handler
        (presentDownloadableMessage handler w message info true storeFailedDownload true).1
        info).2 = true := by
  have hcall : callDownload w message = ((callDownload w message).1, b, none) := by
    simp [callDownload, hdown]
  have hrun : presentDownloadableMessage handler w message info true storeFailedDownload true
      = ((callDownload w message).1, some b) := by
    unfold presentDownloadableMessage
    rw [wantToDownload_of_not_exist handler w info hstat]
    simp only [if_true, hsane]
    rw [hcall]
  rw [hrun]
  exact ⟨rfl, rfl, rfl, hstat⟩

/-- The amended C10 at the identifier `ABC123` and the bytes `01 02`. -/
theorem presentDownloadableMessage_inline_witness :
    isSaneId infoABC123.Id = true ∧
    (presentDownloadableMessage sampleHandler quietWorld goodMedia infoABC123 true false
        true).2 = some [1, 2] ∧
    (presentDownloadableMessage sampleHandler quietWorld goodMedia infoABC123 true false
        true).1.presented = [] ∧
    (presentDownloadableMessage sampleHandler quietWorld goodMedia infoABC123 true false
        true).1.fs = quietWorld.fs :=
  have h := presentDownloadableMessage_inline sampleHandler quietWorld goodMedia infoABC123
    false [1, 2] (by decide) (by decide) rfl
  ⟨by decide, h.1, h.2.1, h.2.2.1⟩

/-! ## Path resolver: lemmas on injectivity -/

theorem Join_pair_empty_empty : Join ["", ""] = "" := by
  simp [Join]

/-- With an empty identifier the resolved path is the downloads directory
itself. -/
theorem generateFilepath_empty_id (getwd : Except String String) (dir : String)
    (info : MessageInfo) (hid : info.Id = "")
    (hwd : IsAbs dir = true ∨ ∃ wd, getwd = .ok wd ∧ IsAbs wd = true) :
    generateFilepath getwd dir info = (Abs getwd dir).1 := by
  unfold generateFilepath
  rw [hid]
  by_cases habs : IsAbs dir = true
  · obtain ⟨q, hq⟩ := (IsAbs_iff dir).1 habs
    have hdne : dir ≠ "" := by
      intro h; rw [h] at hq; simp at hq
    have hS : ∀ e ∈ (splitSlash q).foldl (cleanStep true) [], plainElem e :=
      foldl_cleanStep_rooted_plain _ [] (by simp) (not_mem_of_mem_splitSlash q)
    have hJ : Join [dir, ""]
        = ⟨'/' :: joinElems ((splitSlash q).foldl (cleanStep true) []).reverse⟩ := by
      rw [Join_pair_of_ne _ _ hdne, Clean_rooted_join dir "" q hq]
      simp [splitSlash, cleanStep_nil]
    rw [hJ, Abs_of_rooted_clean getwd _ hS]
    simp only [Abs, habs, if_true]
    apply String.ext
    show _ = cleanChars dir.data
    rw [hq, cleanChars_rooted]
  · rcases hwd with h | ⟨wd, hgw, hwabs⟩
    · exact absurd h habs
    by_cases hd : dir = ""
    · rw [hd, Join_pair_empty_empty]
    obtain ⟨w, hw⟩ := (IsAbs_iff wd).1 hwabs
    have hwne : wd ≠ "" := by
      intro h; rw [h] at hw; simp at hw
    have habs2 : IsAbs dir = false := by simpa using habs
    have hdd : dir.data ≠ [] := data_ne_nil_of_ne_empty dir hd
    have hrel : dir.data.head? ≠ some '/' := by
      intro h
      apply habs
      unfold IsAbs
      simp [h]
    have hT : ∀ e ∈ (splitSlash dir.data).foldl (cleanStep false) [], keptElem e :=
      foldl_cleanStep_kept false _ [] (by simp) (not_mem_of_mem_splitSlash dir.data)
    have hkey := foldl_cleanStep_relative (splitSlash dir.data)
      ((splitSlash w).foldl (cleanStep true) []) [] (by simp)
      (not_mem_of_mem_splitSlash dir.data)
    simp only [List.reverse_nil, List.foldl_nil] at hkey
    -- the joined relative path
    have hJdata : (Join [dir, ""]).data
        = if (splitSlash dir.data).foldl (cleanStep false) [] = [] then ['.']
          else joinElems ((splitSlash dir.data).foldl (cleanStep false) []).reverse := by
      rw [Join_pair_of_ne _ _ hd]
      show cleanChars (dir ++ "/" ++ "").data = _
      have e : (dir ++ "/" ++ "").data = dir.data ++ '/' :: [] := by
        simp [String.data_append]
      have hne2 : dir.data ++ '/' :: [] ≠ [] := by simp
      have hrel2 : (dir.data ++ '/' :: []).head? ≠ some '/' := by
        cases hdata : dir.data with
        | nil => exact absurd hdata hdd
        | cons c cs =>
          rw [hdata] at hrel
          simpa using hrel
      rw [e, cleanChars_relative _ hne2 hrel2, splitSlash_append_slash, List.foldl_append]
      simp [splitSlash, cleanStep_nil]
    have hJrel : IsAbs (Join [dir, ""]) = false := by
      unfold IsAbs
      rw [hJdata]
      by_cases hemp : (splitSlash dir.data).foldl (cleanStep false) [] = []
      · simp [hemp]
      · rw [if_neg hemp]
        have := head?_joinElems ((splitSlash dir.data).foldl (cleanStep false) []).reverse
          (fun e he => hT e (by simpa using he))
        simpa using this
    have hfold : (splitSlash (Join [dir, ""]).data).foldl (cleanStep true)
          ((splitSlash w).foldl (cleanStep true) [])
        = (splitSlash dir.data).foldl (cleanStep true)
          ((splitSlash w).foldl (cleanStep true) []) := by
      rw [hJdata]
      by_cases hemp : (splitSlash dir.data).foldl (cleanStep false) [] = []
      · rw [if_pos hemp]
        rw [hemp] at hkey
        simp only [List.reverse_nil, List.foldl_nil] at hkey
        rw [← hkey]
        simp [splitSlash, cleanStep]
      · rw [if_neg hemp, splitSlash_joinElems _ (by simpa using hemp)
          (fun e he => (hT e (by simpa using he)).2.2)]
        exact hkey
    simp only [Abs, hJrel, habs2, hgw, Bool.false_eq_true, if_false]
    rw [Join_pair_of_ne _ _ hwne, Join_pair_of_ne _ _ hwne, Clean_rooted_join wd _ w hw,
      Clean_rooted_join wd dir w hw, hfold]

theorem joinElems_append_singleton_ne (es : List (List Char)) (e : List Char)
    (he : e ≠ []) : joinElems (es ++ [e]) ≠ joinElems es := by
  rw [joinElems_append_singleton]
  by_cases h : es = []
  · subst h
    simpa [joinElems] using he
  · rw [if_neg h]
    intro hc
    have := congrArg List.length hc
    simp at this

/-! ## Media send adapter: lemmas -/

theorem startsWithChars_iff (p : List Char) :
    ∀ l : List Char, startsWithChars l p = true ↔ ∃ post, l = p ++ post := by
  induction p with
  | nil => intro l; cases l <;> simp [startsWithChars]
  | cons x xs ih =>
    intro l
    cases l with
    | nil => simp [startsWithChars]
    | cons c cs =>
      simp only [startsWithChars, Bool.and_eq_true, decide_eq_true_eq, ih cs,
        List.cons_append, List.cons.injEq]
      constructor
      · rintro ⟨rfl, post, rfl⟩
        exact ⟨post, rfl, rfl⟩
      · rintro ⟨post, rfl, rfl⟩
        exact ⟨rfl, post, rfl⟩

theorem containsChars_iff (substr : List Char) :
    ∀ l : List Char, containsChars substr l = true ↔ ∃ pre post, l = pre ++ substr ++ post := by
  intro l
  induction l with
  | nil =>
    simp only [containsChars, List.isEmpty_iff]
    constructor
    · rintro rfl
      exact ⟨[], [], rfl⟩
    · rintro ⟨pre, post, h⟩
      have h2 := congrArg List.length h
      simp only [List.length_nil, List.length_append] at h2
      exact List.length_eq_zero.1 (by omega)
  | cons c cs ih =>
    simp only [containsChars, Bool.or_eq_true, startsWithChars_iff, ih]
    constructor
    · rintro (⟨post, h⟩ | ⟨pre, post, h⟩)
      · exact ⟨[], post, by simpa using h⟩
      · exact ⟨c :: pre, post, by simp [h]⟩
    · rintro ⟨pre, post, h⟩
      cases pre with
      | nil => exact Or.inl ⟨post, by simpa using h⟩
      | cons x xs =>
        simp only [List.cons_append, List.cons.injEq] at h
        exact Or.inr ⟨xs, post, by simpa using h.2⟩

/-- The test `strings.Contains` holds exactly when the text has the
substring. -/
theorem stringsContains_iff (s substr : String) :
    stringsContains s substr = true ↔ hasSubstring s substr := by
  unfold stringsContains hasSubstring
  rw [containsChars_iff]
  constructor
  · rintro ⟨pre, post, h⟩
    exact ⟨⟨pre⟩, ⟨post⟩, String.ext (by simpa [String.data_append] using h)⟩
  · rintro ⟨pre, post, h⟩
    exact ⟨pre.data, post.data, by simp [h, String.data_append]⟩

theorem stringsContains_eq_false_iff (s substr : String) :
    stringsContains s substr = false ↔ ¬ hasSubstring s substr := by
  rw [← stringsContains_iff, Bool.not_eq_true]

/-- The four ways `sendMediaMessage` ends. -/
theorem sendMediaMessage_cases (handler : waHandler) (w : World) (ob : Outbound)
    (info : MessageInfo) (text : String) :
    (∃ err, osOpen w ob (Join [handler.downloadsDirectory, "outgoing"]) = .error err ∧
      sendMediaMessage handler w ob info text
        = (presentMessage w (.conversationError info
            ("Unable to read file which was going to be sent: " ++ err.Error)), ob, none)) ∨
    (∃ data, osOpen w ob (Join [handler.downloadsDirectory, "outgoing"]) = .ok data ∧
      hasSubstring text "image" ∧
      sendMediaMessage handler w ob info text
        = (w, (sendMessage ob (.ImageMessage info "image/jpeg" data) info).1,
            (sendMessage ob (.ImageMessage info "image/jpeg" data) info).2)) ∨
    (∃ data, osOpen w ob (Join [handler.downloadsDirectory, "outgoing"]) = .ok data ∧
      ¬ hasSubstring text "image" ∧ hasSubstring text "audio" ∧
      sendMediaMessage handler w ob info text
        = (w, (sendMessage ob (.AudioMessage info "audio/ogg" data) info).1,
            (sendMessage ob (.AudioMessage info "audio/ogg" data) info).2)) ∨
    (∃ data, osOpen w ob (Join [handler.downloadsDirectory, "outgoing"]) = .ok data ∧
      ¬ hasSubstring text "image" ∧ ¬ hasSubstring text "audio" ∧
      sendMediaMessage handler w ob info text
        = (presentMessage w (.conversationError info
            "Please specify file type image or audio"), ob, none)) := by
  unfold sendMediaMessage
  cases hopen : osOpen w ob (Join [handler.downloadsDirectory, "outgoing"]) with
  | error err => exact Or.inl ⟨err, rfl, rfl⟩
  | ok data =>
    right
    cases himg : stringsContains text "image"
    · right
      cases haud : stringsContains text "audio"
      · right
        exact ⟨data, rfl, (stringsContains_eq_false_iff _ _).1 himg,
          (stringsContains_eq_false_iff _ _).1 haud, by simp⟩
      · left
        exact ⟨data, rfl, (stringsContains_eq_false_iff _ _).1 himg,
          (stringsContains_iff _ _).1 haud, by simp⟩
    · left
      exact ⟨data, rfl, (stringsContains_iff _ _).1 himg, by simp⟩

/-! ## Frame of the filesystem: lemmas -/

/-- Away from the file it is called for, `storeDownloadedData` does what its
`os.MkdirAll` does. -/
theorem storeDownloadedData_fs_other (handler : waHandler) (w : World) (filename : String)
    (data : Bytes) (p : String) (hp : p ≠ filename) :
    (storeDownloadedData handler w filename data).1.fs p
      = (osMkdirAll w handler.downloadsDirectory).fs p := by
  rcases storeDownloadedData_cases handler w filename data with
    ⟨err, h⟩ | ⟨n, err, h⟩ | h <;> rw [h] <;> simp [World.setFs, fsUpdate, hp]

/-- Either `presentDownloadableMessage` leaves the filesystem as it is, or
the identifier is sane, downloads are enabled, no entry existed at the
resolved path, and the filesystem is the one a `storeDownloadedData` call at
the resolved path leaves. -/
theorem presentDownloadableMessage_fs_cases (handler : waHandler) (w : World)
    (message : downloadable) (info : MessageInfo)
    (downloadsEnabled storeFailedDownload inline : Bool) :
    (presentDownloadableMessage handler w message info downloadsEnabled storeFailedDownload
        inline).1.fs = w.fs ∨
    (isSaneId info.Id = true ∧ downloadsEnabled = true ∧
      w.fs (generateFilepath w.getwd handler.downloadsDirectory info) = none ∧
      ∃ data, (presentDownloadableMessage handler w message info downloadsEnabled
          storeFailedDownload inline).1.fs
        = (storeDownloadedData handler (callDownload w message).1
            (generateFilepath w.getwd handler.downloadsDirectory info) data).1.fs) := by
  unfold presentDownloadableMessage
  rw [wantToDownload_eq]
  cases hwtd : (wantToDownload handler w info).2
  · exact Or.inl rfl
  · have hfree := ((wantToDownload_snd handler w info).1 hwtd).2
    simp only [if_true]
    cases downloadsEnabled
    · exact Or.inl rfl
    · simp only [if_true]
      cases hsane : isSaneId info.Id
      · exact Or.inl rfl
      · simp only [if_true]
        cases hd : message.Download.2 with
        | some err =>
          have hcall : callDownload w message
              = ((callDownload w message).1, message.Download.1, some err) := by
            simp [callDownload, hd]
          rw [hcall]
          simp only []
          cases storeFailedDownload
          · exact Or.inl rfl
          · simp only [if_true]
            right
            refine ⟨by simp, by simp, hfree, [], ?_⟩
            cases hs : (storeDownloadedData handler (callDownload w message).1
              (generateFilepath w.getwd handler.downloadsDirectory info) []).2 with
            | some serr =>
              have hres : storeDownloadedData handler (callDownload w message).1
                  (generateFilepath w.getwd handler.downloadsDirectory info) []
                  = ((storeDownloadedData handler (callDownload w message).1
                      (generateFilepath w.getwd handler.downloadsDirectory info) []).1,
                    some serr) := by
                rw [← hs]
              rw [hres]
              rfl
            | none =>
              have hres : storeDownloadedData handler (callDownload w message).1
                  (generateFilepath w.getwd handler.downloadsDirectory info) []
                  = ((storeDownloadedData handler (callDownload w message).1
                      (generateFilepath w.getwd handler.downloadsDirectory info) []).1,
                    none) := by
                rw [← hs]
              rw [hres]
              rfl
        | none =>
          have hcall : callDownload w message
              = ((callDownload w message).1, message.Download.1, none) := by
            simp [callDownload, hd]
          rw [hcall]
          simp only []
          cases inline
          · simp only [Bool.false_eq_true, if_false]
            right
            refine ⟨by simp, by simp, hfree, message.Download.1, ?_⟩
            cases hs : (storeDownloadedData handler (callDownload w message).1
              (generateFilepath w.getwd handler.downloadsDirectory info)
              message.Download.1).2 with
            | some serr =>
              have hres : storeDownloadedData handler (callDownload w message).1
                  (generateFilepath w.getwd handler.downloadsDirectory info)
                  message.Download.1
                  = ((storeDownloadedData handler (callDownload w message).1
                      (generateFilepath w.getwd handler.downloadsDirectory info)
                      message.Download.1).1, some serr) := by
                rw [← hs]
              rw [hres]
              rfl
            | none =>
              have hres : storeDownloadedData handler (callDownload w message).1
                  (generateFilepath w.getwd handler.downloadsDirectory info)
                  message.Download.1
                  = ((storeDownloadedData handler (callDownload w message).1
                      (generateFilepath w.getwd handler.downloadsDirectory info)
                      message.Download.1).1, none) := by
                rw [← hs]
              rw [hres]
              rfl
          · exact Or.inl rfl

/-! ## C11: Decider and store -/

/-- C11 as it stands fails twice. Where the path of the downloads directory
is taken by a regular file, no entry exists at the resolved path and
`wantToDownload` answers `false`, because `os.Stat` fails with `not a
directory`, not with `ErrNotExist`. And where `os.Create` is refused, the
store creates no file, and `wantToDownload` answers `true` after the call as
before it. -/
theorem wantToDownload_true_after_refused_store :
    (blockedWorld.fs
        (generateFilepath blockedWorld.getwd sampleHandler.downloadsDirectory infoABC123)
      = none ∧
      wantToDownload sampleHandler blockedWorld infoABC123
        = ("/home/user/dl/ABC123", false)) ∧
    (wantToDownload sampleHandler readOnlyWorld infoABC123).2 = true ∧
    (storeDownloadedData sampleHandler readOnlyWorld
        (generateFilepath readOnlyWorld.getwd sampleHandler.downloadsDirectory infoABC123)
        [1, 2]).2
      = some ("File /home/user/dl/ABC123 creation failed due to "
          ++ "open /home/user/dl/ABC123: permission denied.") ∧
    (wantToDownload sampleHandler
        (storeDownloadedData sampleHandler readOnlyWorld
          (generateFilepath readOnlyWorld.getwd sampleHandler.downloadsDirectory infoABC123)
          [1, 2]).1 infoABC123).2 = true := by
  decide

/-- C11, amended: `wantToDownload` answers `true` exactly when `os.Stat` on
the resolved path fails with `ErrNotExist`, that is when no entry exists at
the resolved path and the lookup of the path does not fail on the way; and
for every identifier and every data, also of length zero, after a
`storeDownloadedData` call at the resolved path in which `os.Create`
succeeds (so after every call that returns nil) `wantToDownload` for the
same identifier answers `false`. -/
theorem wantToDownload_iff_and_false_after_store (handler : waHandler) (w : World)
    (info : MessageInfo) :
    ((wantToDownload handler w info).2 = true
      ↔ osStat w (generateFilepath w.getwd handler.downloadsDirectory info)
          = some .ErrNotExist) ∧
    ((wantToDownload handler w info).2 = true
      ↔ w.fs (generateFilepath w.getwd handler.downloadsDirectory info) = none ∧
        pathFault w (generateFilepath w.getwd handler.downloadsDirectory info) = none) ∧
    (∀ data : Bytes,
      (osCreate (osMkdirAll w handler.downloadsDirectory)
        (generateFilepath w.getwd handler.downloadsDirectory info)).2 = none →
      (wantToDownload handler
        (storeDownloadedData handler w
          (generateFilepath w.getwd handler.downloadsDirectory info) data).1 info).2
        = false) ∧
    (∀ data : Bytes,
      (storeDownloadedData handler w
        (generateFilepath w.getwd handler.downloadsDirectory info) data).2 = none →
      (wantToDownload handler
        (storeDownloadedData handler w
          (generateFilepath w.getwd handler.downloadsDirectory info) data).1 info).2
        = false) := by
  have hcreated : ∀ data : Bytes,
      (osCreate (osMkdirAll w handler.downloadsDirectory)
        (generateFilepath w.getwd handler.downloadsDirectory info)).2 = none →
      (wantToDownload handler
        (storeDownloadedData handler w
          (generateFilepath w.getwd handler.downloadsDirectory info) data).1 info).2
        = false := by
    intro data hcreate
    have hex : ∃ e, (storeDownloadedData handler w
        (generateFilepath w.getwd handler.downloadsDirectory info) data).1.fs
        (generateFilepath w.getwd handler.downloadsDirectory info) = some e := by
      unfold storeDownloadedData
      rcases osCreate_cases (osMkdirAll w handler.downloadsDirectory)
        (generateFilepath w.getwd handler.downloadsDirectory info) with ⟨err, hc⟩ | ⟨_, hc⟩
      · rw [hc] at hcreate
        simp at hcreate
      · rcases fileWrite_cases
          ((osMkdirAll w handler.downloadsDirectory).setFs
            (fsUpdate (osMkdirAll w handler.downloadsDirectory).fs
              (generateFilepath w.getwd handler.downloadsDirectory info) (.file [])))
          (generateFilepath w.getwd handler.downloadsDirectory info) data
          with ⟨n, err, hw⟩ | hw
        · simp only [hc, hw]
          exact ⟨.file (data.take n), by simp [World.setFs, fsUpdate]⟩
        · simp only [hc, hw]
          exact ⟨.file data, by simp [World.setFs, fsUpdate]⟩
    obtain ⟨e, he⟩ := hex
    apply wantToDownload_snd_false _ _ _ e
    rw [(storeDownloadedData_frame handler w _ data).2.2]
    exact he
  refine ⟨?_, ?_, hcreated, ?_⟩
  · rw [wantToDownload_snd_eq]
    cases h : osStat w (generateFilepath w.getwd handler.downloadsDirectory info) with
    | none => simp [osIsNotExist]
    | some err => cases err <;> simp [osIsNotExist]
  · rw [wantToDownload_snd]
    exact and_comm
  · intro data hok
    apply hcreated data
    rcases osCreate_cases (osMkdirAll w handler.downloadsDirectory)
      (generateFilepath w.getwd handler.downloadsDirectory info) with ⟨err, hc⟩ | ⟨_, hc⟩
    · simp only [storeDownloadedData, hc] at hok
      simp at hok
    · rw [hc]

/-- The amended C11 at the identifier `ABC123` and zero-length data. -/
theorem wantToDownload_iff_and_false_after_store_witness :
    (wantToDownload sampleHandler quietWorld infoABC123).2 = true ∧
    (wantToDownload sampleHandler
        (storeDownloadedData sampleHandler quietWorld
          (generateFilepath quietWorld.getwd sampleHandler.downloadsDirectory infoABC123)
          []).1 infoABC123).2 = false :=
  have h := wantToDownload_iff_and_false_after_store sampleHandler quietWorld infoABC123
  ⟨h.1.2 (by decide), h.2.2.1 [] (by decide)⟩

/-! ## C12: Local store -/

/-- C12: a `storeDownloadedData` call that returns nil leaves the file at
the path with exactly the data, whatever the world held there before; a
second store overwrites, so that storing `d1` and then `d2` leaves `d2`; and
storing empty data leaves a file of length zero. -/
theorem storeDownloadedData_overwrites (handler : waHandler) (w : World) (path : String)
    (d1 d2 : Bytes)
    (h1 : (storeDownloadedData handler w path d1).2 = none)
    (h2 : (storeDownloadedData handler (storeDownloadedData handler w path d1).1 path
        d2).2 = none)
    (h0 : (storeDownloadedData handler w path []).2 = none) :
    (storeDownloadedData handler w path d1).1.fs path = some (.file d1) ∧
    (storeDownloadedData handler (storeDownloadedData handler w path d1).1 path d2).1.fs path
      = some (.file d2) ∧
    (storeDownloadedData handler w path []).1.fs path = some (.file []) :=
  ⟨storeDownloadedData_ok handler w path d1 h1,
    storeDownloadedData_ok handler _ path d2 h2,
    storeDownloadedData_ok handler w path [] h0⟩

/-- C12 at a path that holds the bytes `09 08 07`: storing `01 02` and then
`03` leaves `03`, and storing nothing leaves an empty file. -/
theorem storeDownloadedData_overwrites_witness :
    stagedWorld.fs "/home/user/dl/outgoing" = some (.file [9, 8, 7]) ∧
    (storeDownloadedData sampleHandler stagedWorld "/home/user/dl/outgoing" [1, 2]).1.fs
      "/home/user/dl/outgoing" = some (.file [1, 2]) ∧
    (storeDownloadedData sampleHandler
      (storeDownloadedData sampleHandler stagedWorld "/home/user/dl/outgoing" [1, 2]).1
      "/home/user/dl/outgoing" [3]).1.fs "/home/user/dl/outgoing" = some (.file [3]) ∧
    (storeDownloadedData sampleHandler stagedWorld "/home/user/dl/outgoing" []).1.fs
      "/home/user/dl/outgoing" = some (.file []) :=
  have h := storeDownloadedData_overwrites sampleHandler stagedWorld "/home/user/dl/outgoing"
    [1, 2] [3] (by decide) (by decide) (by decide)
  ⟨by decide, h.1, h.2.1, h.2.2⟩

/-! ## C13: Injectivity of the path resolver -/

/-- C13 as it stands fails: when the working directory cannot be found, the
relative downloads directory `dl` resolves to the empty path for the sane
identifiers `A` and `B` alike. -/
theorem generateFilepath_collides_without_getwd :
    isSaneId "A" = true ∧ isSaneId "B" = true ∧ ("A" : String) ≠ "B" ∧
    generateFilepath (.error "getwd: no such file or directory") "dl" { Id := "A" }
      = generateFilepath (.error "getwd: no such file or directory") "dl" { Id := "B" } := by
  decide

/-- C13, amended: `generateFilepath` is a function of the downloads directory
and the identifier alone, and for a downloads directory whose absolute form
`filepath.Abs` can determine (the directory is absolute, or the working
directory is known and rooted) it is injective on sane identifiers: two sane
identifiers with the same resolved path are equal. -/
theorem generateFilepath_injective (getwd : Except String String) (dir : String)
    (a b : MessageInfo) (ha : isSaneId a.Id = true) (hb : isSaneId b.Id = true)
    (hwd : IsAbs dir = true ∨ ∃ wd, getwd = .ok wd ∧ IsAbs wd = true)
    (heq : generateFilepath getwd dir a = generateFilepath getwd dir b) :
    a.Id = b.Id ∧
    (∀ c d : MessageInfo, c.Id = d.Id →
      generateFilepath getwd dir c = generateFilepath getwd dir d) := by
  refine ⟨?_, fun c d hcd => by unfold generateFilepath; rw [hcd]⟩
  by_cases hae : a.Id = ""
  · by_cases hbe : b.Id = ""
    · rw [hae, hbe]
    · exfalso
      obtain ⟨S, _, hAbs, hgen⟩ := generateFilepath_stack getwd dir b
        (plainElem_of_isSaneId b.Id hb hbe) hwd
      rw [generateFilepath_empty_id getwd dir a hae hwd, hAbs, hgen] at heq
      have h2 := congrArg String.data heq
      simp only [List.cons.injEq, true_and, List.reverse_cons] at h2
      exact joinElems_append_singleton_ne _ _ (plainElem_of_isSaneId b.Id hb hbe).1 h2.symm
  · by_cases hbe : b.Id = ""
    · exfalso
      obtain ⟨S, _, hAbs, hgen⟩ := generateFilepath_stack getwd dir a
        (plainElem_of_isSaneId a.Id ha hae) hwd
      rw [generateFilepath_empty_id getwd dir b hbe hwd, hAbs, hgen] at heq
      have h2 := congrArg String.data heq
      simp only [List.cons.injEq, true_and, List.reverse_cons] at h2
      exact joinElems_append_singleton_ne _ _ (plainElem_of_isSaneId a.Id ha hae).1 h2
    · obtain ⟨S, hS, hAbs, hgen⟩ := generateFilepath_stack getwd dir a
        (plainElem_of_isSaneId a.Id ha hae) hwd
      obtain ⟨T, hT, hAbs2, hgen2⟩ := generateFilepath_stack getwd dir b
        (plainElem_of_isSaneId b.Id hb hbe) hwd
      rw [hgen, hgen2] at heq
      rw [hAbs] at hAbs2
      have hJ : joinElems S.reverse = joinElems T.reverse := by
        simpa using congrArg String.data hAbs2
      have h2 : joinElems (S.reverse ++ [a.Id.data]) = joinElems (T.reverse ++ [b.Id.data]) := by
        simpa using congrArg String.data heq
      rw [joinElems_append_singleton, joinElems_append_singleton] at h2
      apply String.ext
      by_cases hSn : S.reverse = []
      · have hTn : T.reverse = [] := by
          apply joinElems_eq_nil _ (fun e he => (hT e (by simpa using he)).1)
          rw [← hJ, hSn]
          rfl
        rw [if_pos hSn, if_pos hTn] at h2
        exact h2
      · have hTn : T.reverse ≠ [] := by
          intro hTn
          apply hSn
          apply joinElems_eq_nil _ (fun e he => (hS e (by simpa using he)).1)
          rw [hJ, hTn]
          rfl
        rw [if_neg hSn, if_neg hTn, hJ] at h2
        simpa using h2

/-- The amended C13 at two message infos that agree in the identifier
`ABC123` alone. -/
theorem generateFilepath_injective_witness :
    generateFilepath (.ok "/home/user") "dl" { Id := "ABC123", FromMe := true }
      = generateFilepath (.ok "/home/user") "dl" infoABC123 ∧
    ({ Id := "ABC123", FromMe := true } : MessageInfo).Id = infoABC123.Id :=
  ⟨by decide,
    (generateFilepath_injective (.ok "/home/user") "dl" { Id := "ABC123", FromMe := true }
      infoABC123 (by decide) (by decide) (Or.inr ⟨"/home/user", rfl, by decide⟩)
      (by decide)).1⟩

/-! ## C14: Audio payload -/

/-- C14 as it stands fails: the text `image audio` contains `audio`, the
staged file is readable, and the payload dispatched is an image payload of
type `image/jpeg`, because the test for `image` comes first. -/
theorem sendMediaMessage_image_before_audio :
    hasSubstring "image audio" "audio" ∧
    osOpen stagedWorld quietOutbound (Join [sampleHandler.downloadsDirectory, "outgoing"])
      = .ok ⟨"/home/user/dl/outgoing", .file [9, 8, 7]⟩ ∧
    (sendMediaMessage sampleHandler stagedWorld quietOutbound infoABC123
        "image audio").2.1.sent
      = [(.ImageMessage infoABC123 "image/jpeg"
            ⟨"/home/user/dl/outgoing", .file [9, 8, 7]⟩, infoABC123)] :=
  ⟨⟨"image ", "", by decide⟩, by rfl, by decide⟩

/-- C14, amended: for every trigger text that contains `audio` and does not
contain `image`, when the staged file `outgoing` of the downloads directory
can be opened, `sendMediaMessage` dispatches one payload through
`sendMessage`, a `whatsapp.AudioMessage` with the message info, the content
type `audio/ogg` and the opened file, returns the result of `sendMessage`,
and presents nothing. -/
theorem sendMediaMessage_audio (handler : waHandler) (w : World) (ob : Outbound)
    (info : MessageInfo) (text : String) (data : OsFile)
    (haudio : hasSubstring text "audio") (himage : ¬ hasSubstring text "image")
    (hopen : osOpen w ob (Join [handler.downloadsDirectory, "outgoing"]) = .ok data) :
    (sendMediaMessage handler w ob info text).2.1.sent
      = ob.sent ++ [(.AudioMessage info "audio/ogg" data, info)] ∧
    (sendMediaMessage handler w ob info text).2.2
      = (sendMessage ob (.AudioMessage info "audio/ogg" data) info).2 ∧
    (sendMediaMessage handler w ob info text).1.presented = w.presented := by
  rcases sendMediaMessage_cases handler w ob info text with
    ⟨err, ho, _⟩ | ⟨d, _, hi, _⟩ | ⟨d, ho, _, _, hrun⟩ | ⟨d, _, _, ha, _⟩
  · rw [hopen] at ho; simp at ho
  · exact absurd hi himage
  · rw [hopen] at ho
    have hd : data = d := by simpa using ho
    subst hd
    rw [hrun]
    exact ⟨rfl, rfl, rfl⟩
  · exact absurd haudio ha

/-- The amended C14 at the text `an audio file` and the staged file of
`stagedWorld`. -/
theorem sendMediaMessage_audio_witness :
    (sendMediaMessage sampleHandler stagedWorld quietOutbound infoABC123
        "an audio file").2.1.sent
      = quietOutbound.sent ++ [(.AudioMessage infoABC123 "audio/ogg"
          ⟨"/home/user/dl/outgoing", .file [9, 8, 7]⟩, infoABC123)] ∧
    (sendMediaMessage sampleHandler stagedWorld quietOutbound infoABC123
        "an audio file").2.2 = some "queued ABC123" :=
  have h := sendMediaMessage_audio sampleHandler stagedWorld quietOutbound infoABC123
    "an audio file" ⟨"/home/user/dl/outgoing", .file [9, 8, 7]⟩
    ⟨"an ", " file", by decide⟩
    (fun hc => absurd ((stringsContains_iff _ _).2 hc) (by decide))
    (by rfl)
  ⟨h.1, h.2.1⟩

/-! ## C15: Dispatch condition -/

/-- C15: for every trigger text and every world, `sendMediaMessage`
dispatches a payload through `sendMessage` exactly when the staged file
`outgoing` of the downloads directory can be opened and the text contains
`image` or `audio` as a substring, rune for rune; in every other case
nothing is dispatched, exactly one conversation error is emitted and the
function returns nil. -/
theorem sendMediaMessage_dispatch_iff (handler : waHandler) (w : World) (ob : Outbound)
    (info : MessageInfo) (text : String) :
    ((∃ p, (sendMediaMessage handler w ob info text).2.1.sent = ob.sent ++ [p])
      ↔ ((∃ data, osOpen w ob (Join [handler.downloadsDirectory, "outgoing"]) = .ok data) ∧
          (hasSubstring text "image" ∨ hasSubstring text "audio"))) ∧
    (((∃ data, osOpen w ob (Join [handler.downloadsDirectory, "outgoing"]) = .ok data) ∧
          (hasSubstring text "image" ∨ hasSubstring text "audio")) ∨
      ((sendMediaMessage handler w ob info text).2.1.sent = ob.sent ∧
        (∃ errorMessage, (sendMediaMessage handler w ob info text).1.presented
          = w.presented ++ [.conversationError info errorMessage]) ∧
        (sendMediaMessage handler w ob info text).2.2 = none)) := by
  rcases sendMediaMessage_cases handler w ob info text with
    ⟨err, ho, hrun⟩ | ⟨d, ho, hi, hrun⟩ | ⟨d, ho, hi, ha, hrun⟩ | ⟨d, ho, hi, ha, hrun⟩
  · rw [hrun]
    refine ⟨⟨?_, ?_⟩, Or.inr ⟨rfl, ⟨_, rfl⟩, rfl⟩⟩
    · rintro ⟨p, hp⟩
      simp at hp
    · rintro ⟨⟨data, hd⟩, _⟩
      rw [ho] at hd
      simp at hd
  · rw [hrun]
    exact ⟨⟨fun _ => ⟨⟨d, ho⟩, Or.inl hi⟩, fun _ => ⟨_, rfl⟩⟩, Or.inl ⟨⟨d, ho⟩, Or.inl hi⟩⟩
  · rw [hrun]
    exact ⟨⟨fun _ => ⟨⟨d, ho⟩, Or.inr ha⟩, fun _ => ⟨_, rfl⟩⟩, Or.inl ⟨⟨d, ho⟩, Or.inr ha⟩⟩
  · rw [hrun]
    refine ⟨⟨?_, ?_⟩, Or.inr ⟨rfl, ⟨_, rfl⟩, rfl⟩⟩
    · rintro ⟨p, hp⟩
      simp at hp
    · rintro ⟨_, h | h⟩
      · exact absurd h hi
      · exact absurd h ha

/-! ## C16: Writes of the orchestrator -/

/-- C16: for every invocation of `presentDownloadableMessage`, the content of
every file other than the one at the resolved path is unchanged, and no
file appears or disappears elsewhere: an entry elsewhere is as before, or is
a missing directory on the way to the downloads directory that has been
made. The entry at the resolved path changes only if the identifier is sane,
downloads are enabled and no entry existed there before the call; for an
identifier that is not sane the filesystem is unchanged altogether. -/
theorem presentDownloadableMessage_writes_only_validated (handler : waHandler) (w : World)
    (message : downloadable) (info : MessageInfo)
    (downloadsEnabled storeFailedDownload inline : Bool) :
    (∀ p : String, p ≠ generateFilepath w.getwd handler.downloadsDirectory info →
      (∀ content : Bytes,
        (presentDownloadableMessage handler w message info downloadsEnabled
          storeFailedDownload inline).1.fs p = some (.file content)
        ↔ w.fs p = some (.file content)) ∧
      ((presentDownloadableMessage handler w message info downloadsEnabled
          storeFailedDownload inline).1.fs p = w.fs p ∨
        (w.fs p = none ∧
          (presentDownloadableMessage handler w message info downloadsEnabled
            storeFailedDownload inline).1.fs p = some .dir ∧
          p ∈ dirChain (Abs w.getwd handler.downloadsDirectory).1))) ∧
    ((presentDownloadableMessage handler w message info downloadsEnabled
          storeFailedDownload inline).1.fs
        (generateFilepath w.getwd handler.downloadsDirectory info)
        ≠ w.fs (generateFilepath w.getwd handler.downloadsDirectory info) →
      isSaneId info.Id = true ∧ downloadsEnabled = true ∧
        w.fs (generateFilepath w.getwd handler.downloadsDirectory info) = none) ∧
    (isSaneId info.Id = false →
      (presentDownloadableMessage handler w message info downloadsEnabled
          storeFailedDownload inline).1.fs = w.fs) := by
  have hother : ∀ p : String,
      p ≠ generateFilepath w.getwd handler.downloadsDirectory info →
      ((presentDownloadableMessage handler w message info downloadsEnabled
          storeFailedDownload inline).1.fs p = w.fs p ∨
        (w.fs p = none ∧
          (presentDownloadableMessage handler w message info downloadsEnabled
            storeFailedDownload inline).1.fs p = some .dir ∧
          p ∈ dirChain (Abs w.getwd handler.downloadsDirectory).1)) := by
    intro p hp
    rcases presentDownloadableMessage_fs_cases handler w message info downloadsEnabled
      storeFailedDownload inline with h | ⟨_, _, _, data, h⟩
    · exact Or.inl (by rw [h])
    · rw [h, storeDownloadedData_fs_other handler _ _ data p hp]
      exact mkdirChain_cases w.mkdirFault _ w.fs p
  refine ⟨fun p hp => ⟨fun content => ?_, hother p hp⟩, ?_, ?_⟩
  · rcases hother p hp with h | ⟨h1, h2, _⟩
    · rw [h]
    · rw [h1, h2]
      simp
  · intro hc
    rcases presentDownloadableMessage_fs_cases handler w message info downloadsEnabled
      storeFailedDownload inline with h | ⟨hsane, hen, hfree, _, _⟩
    · exact absurd (by rw [h]) hc
    · exact ⟨hsane, hen, hfree⟩
  · intro hc
    rcases presentDownloadableMessage_fs_cases handler w message info downloadsEnabled
      storeFailedDownload inline with h | ⟨hsane, _, _, _, _⟩
    · exact h
    · rw [hsane] at hc
      exact absurd hc (by simp)

/-! ## C17: Retry comment -/

/-- C17 fails on the code: where `os.Create` is refused, the failed download
of `ABC123` is reported with the retry comment "Will not try to download
again.", no placeholder exists afterwards, and `wantToDownload` for the same
identifier answers `true`. -/
theorem presentDownloadableMessage_will_not_retry_but_wants :
    (presentDownloadableMessage sampleHandler readOnlyWorld badMedia infoABC123 true true
        false).1.presented
      = [.conversationError infoABC123
          ("A media message (ID ABC123) was received, but the download failed: "
            ++ "connection reset. Will not try to download again.")] ∧
    (presentDownloadableMessage sampleHandler readOnlyWorld badMedia infoABC123 true true
        false).1.fs "/home/user/dl/ABC123" = none ∧
    (wantToDownload sampleHandler
        (presentDownloadableMessage sampleHandler readOnlyWorld badMedia infoABC123 true true
          false).1 infoABC123)
      = ("/home/user/dl/ABC123", true) := by
  decide

end PurpleGwa
